import Mathlib

/-!
Verification of the meeting-workflow automation backend.

This file is a shallow embedding, in Lean 4, of the core components of the
repository: the date utilities (`app/date_utils.py`), the entity resolver
(`app/member_matching.py`, including difflib's `SequenceMatcher`), the task
extraction cascade (`app/task_extractor.py`, including a strict JSON parser
matching `json.loads` and the regex repair heuristics), the stage pipeline
(`app/pipeline.py`), and the recording watcher's concurrency guard
(`app/recording_watcher.py`).

Python strings are modelled as `List Char` (ASCII assumed for case mapping),
Python `float` scores as exact rationals, Python exceptions as `Except`,
impure inputs (`date.today()`, the optional `dateparser` library, external
collaborator calls) as explicit parameters.
-/

namespace WA

/-! ## Python string primitives (`List Char` model) -/

/-- ASCII lowercase of one character, as Python's `str.lower` acts on ASCII. -/
def lower_char (c : Char) : Char :=
  if 'A' ≤ c && c ≤ 'Z' then Char.ofNat (c.toNat + 32) else c

/-- Python `str.lower()` (ASCII fragment). -/
def py_lower (s : List Char) : List Char := s.map lower_char

/-- Python whitespace (`str.strip()` default set and regex `\s`, ASCII fragment). -/
def is_py_space (c : Char) : Bool :=
  c = ' ' || c = '\t' || c = '\n' || c = '\x0d' || c = '\x0b' || c = '\x0c'

/-- Python `str.strip()`. -/
def py_strip (s : List Char) : List Char :=
  ((s.dropWhile is_py_space).reverse.dropWhile is_py_space).reverse

/-- `w` is a prefix of `s`. -/
def starts_with : List Char → List Char → Bool
  | _, [] => true
  | [], _ :: _ => false
  | c :: s, w :: ws => c = w && starts_with s ws

/-- Python `w in s`: `w` occurs contiguously in `s` (the empty string occurs
everywhere). -/
def is_sub (w : List Char) : List Char → Bool
  | [] => starts_with [] w
  | c :: rest => starts_with (c :: rest) w || is_sub w rest

/-- ASCII decimal digit test (regex `\d`, ASCII fragment). -/
def is_digit (c : Char) : Bool := '0' ≤ c && c ≤ '9'

/-- The numeric value of a digit character. -/
def char_digit (c : Char) : Option Nat :=
  if is_digit c then some (c.toNat - 48) else none

/-- Value of a nonempty digit string, most significant first. -/
def nat_of_digits (ds : List Char) : Nat :=
  ds.foldl (fun acc c => acc * 10 + (c.toNat - 48)) 0

/-- Index of the first occurrence of `c` in `s` (Python `str.find`, as an
`Option` instead of `-1`). -/
def find_char (c : Char) (s : List Char) : Option Nat :=
  s.findIdx? (fun x => x = c)

/-- Index of the last occurrence of `c` in `s` (Python `str.rfind`). -/
def rfind_char (c : Char) (s : List Char) : Option Nat :=
  match find_char c s.reverse with
  | none => none
  | some i => some (s.length - 1 - i)

/-! ## Date model (`datetime.date`, proleptic Gregorian, years 1–9999) -/

structure PyDate where
  year : Nat
  month : Nat
  day : Nat
deriving DecidableEq, Repr

/-- Gregorian leap year, as `calendar.isleap` / `datetime`. -/
def is_leap_year (y : Nat) : Bool :=
  y % 4 = 0 && (y % 100 ≠ 0 || y % 400 = 0)

/-- Number of days in month `m` of year `y`. -/
def days_in_month (y m : Nat) : Nat :=
  if m = 2 then (if is_leap_year y then 29 else 28)
  else if m = 4 ∨ m = 6 ∨ m = 9 ∨ m = 11 then 30
  else 31

/-- The range Python's `datetime.date` accepts. -/
def PyDate.valid (d : PyDate) : Bool :=
  (1 ≤ d.year && d.year ≤ 9999) && (1 ≤ d.month && d.month ≤ 12) &&
    (1 ≤ d.day && d.day ≤ days_in_month d.year d.month)

/-- Days in all years strictly before year `y` (`date.toordinal` helper). -/
def days_before_year (y : Nat) : Nat :=
  365 * (y - 1) + (y - 1) / 4 - (y - 1) / 100 + (y - 1) / 400

/-- Days in the months of year `y` strictly before month `m`. -/
def days_before_month (y m : Nat) : Nat :=
  ((List.range' 1 (m - 1)).map (days_in_month y)).sum

/-- Python `date.toordinal()`: 0001-01-01 is day 1. -/
def PyDate.toordinal (d : PyDate) : Nat :=
  days_before_year d.year + days_before_month d.year d.month + d.day

/-- Python `date.weekday()`: Monday = 0 … Sunday = 6. -/
def PyDate.weekday (d : PyDate) : Nat := (d.toordinal + 6) % 7

/-- Successor day (date arithmetic helper for `timedelta` addition). -/
def next_day (d : PyDate) : PyDate :=
  if d.day < days_in_month d.year d.month then ⟨d.year, d.month, d.day + 1⟩
  else if d.month < 12 then ⟨d.year, d.month + 1, 1⟩
  else ⟨d.year + 1, 1, 1⟩

/-- `d + timedelta(days = n)` without the range check. -/
def add_days (d : PyDate) : Nat → PyDate
  | 0 => d
  | n + 1 => add_days (next_day d) n

/-- `d + timedelta(days = n)`; `none` models the `OverflowError` Python raises
when the result would pass 9999-12-31.  Day counts at or above the ordinal of
9999-12-31 always overflow from any valid start, so they short-circuit. -/
def add_days_checked (d : PyDate) (n : Nat) : Option PyDate :=
  if 3652059 ≤ n then none
  else
    let r := add_days d n
    if r.year ≤ 9999 then some r else none

/-- Predecessor day. -/
def prev_day (d : PyDate) : PyDate :=
  if 1 < d.day then ⟨d.year, d.month, d.day - 1⟩
  else if 1 < d.month then ⟨d.year, d.month - 1, days_in_month d.year (d.month - 1)⟩
  else ⟨d.year - 1, 12, 31⟩

/-- `d - timedelta(days = 1)`; `none` models the `OverflowError` below
0001-01-01. -/
def yesterday_checked (d : PyDate) : Option PyDate :=
  if d = ⟨1, 1, 1⟩ then none else some (prev_day d)

/-! ## `app/date_utils.py` -/

/-- `_get_end_of_week`: the coming Sunday, or next Sunday when today is
Sunday. -/
def get_end_of_week (today : PyDate) : Option PyDate :=
  let du := (6 - today.weekday) % 7
  let du := if du = 0 then 7 else du
  add_days_checked today du

/-- `_get_end_of_month`: last day of the current month.  Python computes it as
the first of the next month minus one day, so for 9999-12 constructing
`date(10000, 1, 1)` raises, modelled by `none`. -/
def get_end_of_month (today : PyDate) : Option PyDate :=
  if today.month = 12 && today.year = 9999 then none
  else some ⟨today.year, today.month, days_in_month today.year today.month⟩

/-- `_get_next_weekday`: next occurrence of weekday `w` (Monday = 0), today
excluded; `days_ahead = w - today.weekday(); if days_ahead <= 0: += 7`. -/
def get_next_weekday (today : PyDate) (w : Nat) : Option PyDate :=
  let wd := today.weekday
  let ahead := if w ≤ wd then w + 7 - wd else w - wd
  add_days_checked today ahead

/-- Regex `\s+` at the head: require at least one whitespace char, drop the
whole run. -/
def ws1 (s : List Char) : Option (List Char) :=
  match s with
  | c :: rest => if is_py_space c then some (rest.dropWhile is_py_space) else none
  | [] => none

/-- Regex `(\d+)` at the head (greedy; the following pattern pieces never
consume digits, so the greedy run is exact). -/
def digits1 (s : List Char) : Option (Nat × List Char) :=
  let ds := s.takeWhile is_digit
  if ds = [] then none else some (nat_of_digits ds, s.dropWhile is_digit)

/-- Literal word at the head. -/
def lit_word (w : List Char) (s : List Char) : Option (List Char) :=
  if starts_with s w then some (s.drop w.length) else none

/-- Pattern `^in\s+(\d+)\s+days?$` / `^in\s+(\d+)\s+weeks?$` shared tail
`days?`/`weeks?` followed by end of string. -/
def opt_s_end (w : List Char) (s : List Char) : Bool :=
  match lit_word w s with
  | none => false
  | some r => r = [] || r = ['s']

/-- `RELATIVE_DATE_PATTERNS`, tried in dict insertion order against the
lowered, stripped text.  Each entry: if its anchored regex matches, its date
lambda runs inside `try/except Exception: continue`, so a matched pattern
whose lambda raises (date overflow) falls through to the next pattern.
Returns the first successful result. -/
def relative_date_result (today : PyDate) (tl : List Char) : Option PyDate :=
  -- ^today$
  if tl = "today".data then some today
  -- ^tomorrow$
  else if tl = "tomorrow".data then
    match add_days_checked today 1 with
    | some d => some d
    | none => relative_weekday_none
  -- ^yesterday$
  else if tl = "yesterday".data then
    match yesterday_checked today with
    | some d => some d
    | none => relative_weekday_none
  else
    -- ^next\s+week$
    match (do
      let r1 ← lit_word "next".data tl
      let r2 ← ws1 r1
      let r3 ← lit_word "week".data r2
      if r3 = [] then some () else none : Option Unit) with
    | some _ =>
      match add_days_checked today 7 with
      | some d => some d
      | none => relative_weekday_none
    | none =>
    -- ^in\s+(\d+)\s+days?$
    match (do
      let r1 ← lit_word "in".data tl
      let r2 ← ws1 r1
      let (n, r3) ← digits1 r2
      let r4 ← ws1 r3
      if opt_s_end "day".data r4 then some n else none : Option Nat) with
    | some n =>
      match add_days_checked today n with
      | some d => some d
      | none => rel_after_in_days today tl
    | none => rel_after_in_days today tl
  where
    /-- No relative pattern can still fire; `None` here means the weekday scan
    runs next. -/
    relative_weekday_none : Option PyDate := none
    /-- Continuation after the `in N days` pattern: the remaining four
    patterns in order. -/
    rel_after_in_days (today : PyDate) (tl : List Char) : Option PyDate :=
      -- ^in\s+(\d+)\s+weeks?$
      match (do
        let r1 ← lit_word "in".data tl
        let r2 ← ws1 r1
        let (n, r3) ← digits1 r2
        let r4 ← ws1 r3
        if opt_s_end "week".data r4 then some n else none : Option Nat) with
      | some n =>
        match add_days_checked today (7 * n) with
        | some d => some d
        | none => rel_after_in_weeks today tl
      | none => rel_after_in_weeks today tl
    /-- Continuation after the `in N weeks` pattern. -/
    rel_after_in_weeks (today : PyDate) (tl : List Char) : Option PyDate :=
      -- ^(\d+)\s+days?\s+from\s+now$
      match (do
        let (n, r1) ← digits1 tl
        let r2 ← ws1 r1
        let r3 ← lit_word "day".data r2
        let r4 ← (match r3 with
          | 's' :: rest => some rest
          | _ => some r3 : Option (List Char))
        let r5 ← ws1 r4
        let r6 ← lit_word "from".data r5
        let r7 ← ws1 r6
        let r8 ← lit_word "now".data r7
        if r8 = [] then some n else none : Option Nat) with
      | some n =>
        match add_days_checked today n with
        | some d => some d
        | none => rel_tail today tl
      | none => rel_tail today tl
    /-- The two `end of …` patterns. -/
    rel_tail (today : PyDate) (tl : List Char) : Option PyDate :=
      -- ^end\s+of\s+week$
      match (do
        let r1 ← lit_word "end".data tl
        let r2 ← ws1 r1
        let r3 ← lit_word "of".data r2
        let r4 ← ws1 r3
        let r5 ← lit_word "week".data r4
        if r5 = [] then some () else none : Option Unit) with
      | some _ =>
        match get_end_of_week today with
        | some d => some d
        | none => rel_last today tl
      | none => rel_last today tl
    /-- `^end\s+of\s+month$`, the last pattern. -/
    rel_last (today : PyDate) (tl : List Char) : Option PyDate :=
      match (do
        let r1 ← lit_word "end".data tl
        let r2 ← ws1 r1
        let r3 ← lit_word "of".data r2
        let r4 ← ws1 r3
        let r5 ← lit_word "month".data r4
        if r5 = [] then some () else none : Option Unit) with
      | some _ => get_end_of_month today
      | none => none

/-- `WEEKDAY_NAMES`, in dict insertion order (the order the fallback scans). -/
def weekday_names : List (List Char × Nat) :=
  [("monday".data, 0), ("mon".data, 0),
   ("tuesday".data, 1), ("tue".data, 1), ("tues".data, 1),
   ("wednesday".data, 2), ("wed".data, 2),
   ("thursday".data, 3), ("thu".data, 3), ("thur".data, 3), ("thurs".data, 3),
   ("friday".data, 4), ("fri".data, 4),
   ("saturday".data, 5), ("sat".data, 5),
   ("sunday".data, 6), ("sun".data, 6)]

/-- `_fallback_parse_date`.  The weekday branch is not inside a `try`, so a
date overflow there propagates (`Except.error`). -/
def fallback_parse_date (today : PyDate) (text : List Char) :
    Except (List Char) (Option PyDate) :=
  let tl := py_strip (py_lower text)
  match relative_date_result today tl with
  | some d => .ok (some d)
  | none =>
    match weekday_names.find? (fun p => is_sub p.1 tl) with
    | some p =>
      match get_next_weekday today p.2 with
      | some d => .ok (some d)
      | none => .error "OverflowError".data
    | none => .ok none

/-- The ISO branch of `parse_due_date`: regex `^\d{4}-\d{2}-\d{2}$` plus
`date.fromisoformat` (which range-checks and raises `ValueError`, absorbed by
the caller into `none`). -/
def iso_parse (t : List Char) : Option PyDate :=
  match t with
  | [a, b, c, d, h1, e, f, h2, g, h] =>
    if h1 = '-' && h2 = '-' then do
      let a' ← char_digit a
      let b' ← char_digit b
      let c' ← char_digit c
      let d' ← char_digit d
      let e' ← char_digit e
      let f' ← char_digit f
      let g' ← char_digit g
      let h' ← char_digit h
      let dt : PyDate :=
        ⟨((a' * 10 + b') * 10 + c') * 10 + d', e' * 10 + f', g' * 10 + h'⟩
      if dt.valid then some dt else none
    else none
  | _ => none

/-- `strptime` `%d` directive: regex `3[01]|[12]\d|0[1-9]|[1-9]`, alternatives
in backtracking priority order. -/
def alts_day (s : List Char) : List (Nat × List Char) :=
  (match s with
   | '3' :: c :: r => if c = '0' || c = '1' then [(30 + (c.toNat - 48), r)] else []
   | _ => []) ++
  (match s with
   | c1 :: c2 :: r =>
     if (c1 = '1' || c1 = '2') && is_digit c2 then
       [((c1.toNat - 48) * 10 + (c2.toNat - 48), r)]
     else []
   | _ => []) ++
  (match s with
   | '0' :: c :: r => if '1' ≤ c && c ≤ '9' then [(c.toNat - 48, r)] else []
   | _ => []) ++
  (match s with
   | c :: r => if '1' ≤ c && c ≤ '9' then [(c.toNat - 48, r)] else []
   | _ => [])

/-- `strptime` `%m` directive: regex `1[0-2]|0[1-9]|[1-9]`. -/
def alts_month (s : List Char) : List (Nat × List Char) :=
  (match s with
   | '1' :: c :: r => if c = '0' || c = '1' || c = '2' then [(10 + (c.toNat - 48), r)] else []
   | _ => []) ++
  (match s with
   | '0' :: c :: r => if '1' ≤ c && c ≤ '9' then [(c.toNat - 48, r)] else []
   | _ => []) ++
  (match s with
   | c :: r => if '1' ≤ c && c ≤ '9' then [(c.toNat - 48, r)] else []
   | _ => [])

/-- `strptime` `%Y` directive: exactly four digits. -/
def alts_year (s : List Char) : List (Nat × List Char) :=
  match s with
  | a :: b :: c :: d :: r =>
    if is_digit a && is_digit b && is_digit c && is_digit d then
      [(((a.toNat - 48) * 10 + (b.toNat - 48)) * 100 +
          (c.toNat - 48) * 10 + (d.toNat - 48), r)]
    else []
  | _ => []

/-- Full month names, longest-alternative-first as `_strptime` compiles them
(case-insensitive; input is matched lowercased). -/
def month_full : List (List Char × Nat) :=
  [("september".data, 9), ("december".data, 12), ("february".data, 2),
   ("november".data, 11), ("january".data, 1), ("october".data, 10),
   ("august".data, 8), ("april".data, 4), ("march".data, 3),
   ("june".data, 6), ("july".data, 7), ("may".data, 5)]

/-- Abbreviated month names (`%b`), longest first. -/
def month_abbr : List (List Char × Nat) :=
  [("jan".data, 1), ("feb".data, 2), ("mar".data, 3), ("apr".data, 4),
   ("may".data, 5), ("jun".data, 6), ("jul".data, 7), ("aug".data, 8),
   ("sep".data, 9), ("oct".data, 10), ("nov".data, 11), ("dec".data, 12)]

/-- `%B` / `%b` directive: first name (in alternative order) that prefixes the
lowercased input. -/
def alts_month_name (names : List (List Char × Nat)) (s : List Char) :
    List (Nat × List Char) :=
  match names.find? (fun p => starts_with (py_lower s) p.1) with
  | some p => [(p.2, s.drop p.1.length)]
  | none => []

/-- A literal separator character in a `strptime` format. -/
def alts_lit (c : Char) (s : List Char) : List (Nat × List Char) :=
  match s with
  | x :: r => if x = c then [(0, r)] else []
  | [] => []

/-- A whitespace in a `strptime` format (compiled to `\s+`). -/
def alts_ws (s : List Char) : List (Nat × List Char) :=
  match ws1 s with
  | some r => [(0, r)]
  | none => []

/-- One `strptime` date format: a sequence of directive matchers for day,
month, year in some order with separators.  Nondeterminism lists model regex
backtracking; the first full match (rest empty) wins, then the assembled date
is validated as `datetime` would (a failure raises `ValueError`, absorbed by
the caller's `continue`). -/
def run_format (steps : List (List Char → List (Nat × List Char)))
    (extract : List Nat → Option (Nat × Nat × Nat)) (s : List Char) :
    Option PyDate :=
  let parses := steps.foldl
    (fun (acc : List (List Nat × List Char)) step =>
      acc.flatMap (fun (vals, rest) => (step rest).map
        (fun (v, rest') => (vals ++ [v], rest'))))
    [([], s)]
  match parses.find? (fun p => p.2 = []) with
  | some (vals, _) =>
    match extract vals with
    | some (y, m, d) =>
      let dt : PyDate := ⟨y, m, d⟩
      if dt.valid then some dt else none
    | none => none
  | none => none

/-- Value list accessor for `run_format` extractors. -/
def val_at (vals : List Nat) (i : Nat) : Nat := vals.getD i 0

/-- The `date_formats` loop of `parse_due_date`, formats in source order:
`%Y-%m-%d`, `%d/%m/%Y`, `%m/%d/%Y`, `%d-%m-%Y`, `%B %d, %Y`, `%b %d, %Y`,
`%d %B %Y`, `%d %b %Y`. -/
def strptime_formats (s : List Char) : Option PyDate :=
  let fmts : List (Option PyDate) :=
    [run_format [alts_year, alts_lit '-', alts_month, alts_lit '-', alts_day]
       (fun v => some (val_at v 0, val_at v 2, val_at v 4)) s,
     run_format [alts_day, alts_lit '/', alts_month, alts_lit '/', alts_year]
       (fun v => some (val_at v 4, val_at v 2, val_at v 0)) s,
     run_format [alts_month, alts_lit '/', alts_day, alts_lit '/', alts_year]
       (fun v => some (val_at v 4, val_at v 0, val_at v 2)) s,
     run_format [alts_day, alts_lit '-', alts_month, alts_lit '-', alts_year]
       (fun v => some (val_at v 4, val_at v 2, val_at v 0)) s,
     run_format [alts_month_name month_full, alts_ws, alts_day, alts_lit ',',
         alts_ws, alts_year]
       (fun v => some (val_at v 5, val_at v 0, val_at v 2)) s,
     run_format [alts_month_name month_abbr, alts_ws, alts_day, alts_lit ',',
         alts_ws, alts_year]
       (fun v => some (val_at v 5, val_at v 0, val_at v 2)) s,
     run_format [alts_day, alts_ws, alts_month_name month_full, alts_ws, alts_year]
       (fun v => some (val_at v 4, val_at v 2, val_at v 0)) s,
     run_format [alts_day, alts_ws, alts_month_name month_abbr, alts_ws, alts_year]
       (fun v => some (val_at v 4, val_at v 2, val_at v 0)) s]
  (fmts.find? Option.isSome).join

/-- The null-sentinel strings of `parse_due_date`. -/
def sentinel_dates : List (List Char) :=
  ["null".data, "none".data, "n/a".data, [], "unspecified".data]

/-- `parse_due_date`.  `dp` is the optional `dateparser` library (an external
collaborator): `fun _ => none` models it unavailable or failing; its own
exceptions are absorbed by the source's `try/except`.  `today` is the clock.
Only the hand-rolled fallback can raise (weekday date overflow). -/
def parse_due_date (dp : List Char → Option PyDate) (today : PyDate)
    (text : List Char) : Except (List Char) (Option PyDate) :=
  if text = [] || (py_lower text) ∈ sentinel_dates then .ok none
  else
    let t := py_strip text
    match iso_parse t with
    | some d => .ok (some d)
    | none =>
      match strptime_formats t with
      | some d => .ok (some d)
      | none =>
        match dp t with
        | some d => .ok (some d)
        | none => fallback_parse_date today t

/-- `format_date_iso`: zero-padded `YYYY-MM-DD`. -/
def pad_digits : Nat → Nat → List Char
  | 0, _ => []
  | w + 1, n => pad_digits w (n / 10) ++ [Char.ofNat (48 + n % 10)]

/-- The ISO string of a date (the non-`None` branch of `format_date_iso`). -/
def iso_format (d : PyDate) : List Char :=
  pad_digits 4 d.year ++ ['-'] ++ pad_digits 2 d.month ++ ['-'] ++ pad_digits 2 d.day

/-- `format_date_iso` on an optional date. -/
def format_date_iso (d : Option PyDate) : Option (List Char) :=
  d.map iso_format

/-- `get_default_deadline(days_from_now = 7)`; callers only use it well below
the date ceiling, the unchecked sum mirrors that. -/
def get_default_deadline (today : PyDate) (days_from_now : Nat) : PyDate :=
  add_days today days_from_now

/-! ## `difflib.SequenceMatcher` (as used with `junk = None`)

The matcher used by `calculate_similarity` compares two character sequences:
`ratio() = 2 * (total size of matching blocks) / (len(a) + len(b))`.  Scores
are modelled as exact rationals. -/

/-- All positions of `c` in `b`, ascending — the `b2j` chain. -/
def seq_positions (b : List Char) (c : Char) : List Nat :=
  (List.range b.length).filter (fun j => b.getD j ' ' = c)

/-- The autojunk rule: for `len(b) >= 200`, characters occurring more than
`len(b) // 100 + 1` times are dropped from `b2j`. -/
def is_popular (b : List Char) (c : Char) : Bool :=
  b.length ≥ 200 && (seq_positions b c).length > b.length / 100 + 1

/-- `b2j.get(ch, [])` after autojunk pruning. -/
def b2j_get (b : List Char) (c : Char) : List Nat :=
  if is_popular b c then [] else seq_positions b c

/-- Best block candidate of `find_longest_match`: start in `a`, start in `b`,
size. -/
structure FlmBest where
  i : Nat
  j : Nat
  size : Nat
deriving DecidableEq, Repr

/-- `j2len` lookup with default 0 (`j2len.get(j - 1, 0)`; `j = 0` looks up the
absent key `-1`). -/
def j2len_get (m : List (Nat × Nat)) (j : Nat) : Nat :=
  match m.find? (fun p => p.1 = j) with
  | some p => p.2
  | none => 0

/-- Inner loop of `find_longest_match`: for each `j` position of `a[i]` in
`b` (within `[blo, bhi)`, ascending), extend the diagonal run and track the
strictly-best block (so earliest `i`, then earliest `j`, wins ties). -/
def flm_inner (j2len : List (Nat × Nat)) (i : Nat) :
    List Nat → List (Nat × Nat) → FlmBest → List (Nat × Nat) × FlmBest
  | [], acc, best => (acc, best)
  | j :: js, acc, best =>
    let k := (if j = 0 then 0 else j2len_get j2len (j - 1)) + 1
    let best' := if k > best.size then ⟨i + 1 - k, j + 1 - k, k⟩ else best
    flm_inner j2len i js ((j, k) :: acc) best'

/-- Outer loop of `find_longest_match` over `i` in `[alo, ahi)`. -/
def flm_outer (a b : List Char) (blo bhi : Nat) :
    List Nat → List (Nat × Nat) → FlmBest → FlmBest
  | [], _, best => best
  | i :: is', j2len, best =>
    let js := (b2j_get b (a.getD i ' ')).filter (fun j => blo ≤ j && j < bhi)
    let (j2len', best') := flm_inner j2len i js [] best
    flm_outer a b blo bhi is' j2len' best'

/-- First extension loop: grow the block backwards over equal characters
(`junk = None`, so the junk guard is vacuous). -/
def flm_extend_back (a b : List Char) (alo blo : Nat) :
    Nat → FlmBest → FlmBest
  | 0, best => best
  | fuel + 1, best =>
    if best.i > alo && best.j > blo &&
        a.get? (best.i - 1) = b.get? (best.j - 1) then
      flm_extend_back a b alo blo fuel ⟨best.i - 1, best.j - 1, best.size + 1⟩
    else best

/-- Second extension loop: grow the block forwards over equal characters. -/
def flm_extend_fwd (a b : List Char) (ahi bhi : Nat) :
    Nat → FlmBest → FlmBest
  | 0, best => best
  | fuel + 1, best =>
    if best.i + best.size < ahi && best.j + best.size < bhi &&
        a.get? (best.i + best.size) = b.get? (best.j + best.size) &&
        (a.get? (best.i + best.size)).isSome then
      flm_extend_fwd a b ahi bhi fuel ⟨best.i, best.j, best.size + 1⟩
    else best

/-- `find_longest_match(alo, ahi, blo, bhi)` with `junk = None`: the two junk
extension loops never fire (the junk set is empty) and are omitted. -/
def find_longest_match (a b : List Char) (alo ahi blo bhi : Nat) : FlmBest :=
  let base := flm_outer a b blo bhi (List.range' alo (ahi - alo)) [] ⟨alo, blo, 0⟩
  let e1 := flm_extend_back a b alo blo (a.length + 1) base
  flm_extend_fwd a b ahi bhi (a.length + b.length + 1) e1

/-- Total size of all matching blocks (`get_matching_blocks`; the queue order
does not affect the sum, so the recursion is on subregions directly, with fuel
bounding the region sizes). -/
def matching_total (a b : List Char) :
    Nat → Nat → Nat → Nat → Nat → Nat
  | 0, _, _, _, _ => 0
  | fuel + 1, alo, ahi, blo, bhi =>
    let m := find_longest_match a b alo ahi blo bhi
    if m.size = 0 then 0
    else
      m.size +
      (if alo < m.i && blo < m.j then matching_total a b fuel alo m.i blo m.j else 0) +
      (if m.i + m.size < ahi && m.j + m.size < bhi then
        matching_total a b fuel (m.i + m.size) ahi (m.j + m.size) bhi else 0)

/-- Scores are exact rationals built with `mkRat` (kept kernel-computable:
the similarity pipeline only ever forms nonnegative fractions, adds them and
multiplies them). -/
def q_add (a b : ℚ) : ℚ :=
  mkRat (a.num * (b.den : Int) + b.num * (a.den : Int)) (a.den * b.den)

/-- Exact rational product. -/
def q_mul (a b : ℚ) : ℚ := mkRat (a.num * b.num) (a.den * b.den)

/-- Python `max(a, b)` (returns the first argument on a tie). -/
def py_max (a b : ℚ) : ℚ := if Rat.blt a b then b else a

/-- `SequenceMatcher(None, a, b).ratio()`; `_calculate_ratio` returns 1.0 when
both sequences are empty. -/
def sm_ratio (a b : List Char) : ℚ :=
  let M := matching_total a b (a.length + b.length + 1) 0 a.length 0 b.length
  let T := a.length + b.length
  if T = 0 then mkRat 1 1 else mkRat (2 * M) T

/-! ## `app/member_matching.py` -/

/-- Characters the first normalisation regex `[.,;:\-_/\\]+` collapses to a
space. -/
def is_name_punct (c : Char) : Bool :=
  c = '.' || c = ',' || c = ';' || c = ':' || c = '-' || c = '_' ||
  c = '/' || c = '\\'

/-- Replace maximal runs of `p`-characters by a single `repl` (regex
`p+ -> repl`); the flag records whether the previous character was in a run. -/
def collapse_runs_aux (p : Char → Bool) (repl : Char) :
    Bool → List Char → List Char
  | _, [] => []
  | inRun, c :: rest =>
    if p c then
      if inRun then collapse_runs_aux p repl true rest
      else repl :: collapse_runs_aux p repl true rest
    else c :: collapse_runs_aux p repl false rest

/-- Replace maximal runs of `p`-characters by a single `repl`. -/
def collapse_runs (p : Char → Bool) (repl : Char) (s : List Char) : List Char :=
  collapse_runs_aux p repl false s

/-- Characters kept by the final filter regex `[^a-z0-9\s]` removal. -/
def keep_norm (c : Char) : Bool :=
  ('a' ≤ c && c ≤ 'z') || is_digit c || is_py_space c

/-- `normalize_name`: lower + strip, punctuation to spaces, whitespace runs to
one space, drop other non-alphanumerics, strip. -/
def normalize_name (name : List Char) : List Char :=
  if name = [] then []
  else
    let n := py_strip (py_lower name)
    let n := collapse_runs is_name_punct ' ' n
    let n := collapse_runs is_py_space ' ' n
    let n := n.filter keep_norm
    py_strip n

/-- Python `str.split()` with no argument: maximal nonempty words separated
by whitespace runs; `cur` accumulates the current word reversed. -/
def py_words_aux : List Char → List Char → List (List Char)
  | cur, [] => if cur = [] then [] else [cur.reverse]
  | cur, c :: rest =>
    if is_py_space c then
      if cur = [] then py_words_aux [] rest
      else cur.reverse :: py_words_aux [] rest
    else py_words_aux (c :: cur) rest

/-- Python `str.split()` with no argument. -/
def py_words (s : List Char) : List (List Char) :=
  py_words_aux [] s

/-- `calculate_similarity`: exact-match 1.0, substring containment 0.85, else
a `SequenceMatcher` ratio boosted by shared words and by a strong
single-word match. -/
def calculate_similarity (name1 name2 : List Char) : ℚ :=
  let n1 := normalize_name name1
  let n2 := normalize_name name2
  if n1 = [] || n2 = [] then mkRat 0 1
  else if n1 = n2 then mkRat 1 1
  else if is_sub n1 n2 || is_sub n2 n1 then mkRat 17 20
  else
    let base := sm_ratio n1 n2
    let parts1 := (py_words n1).dedup
    let parts2 := (py_words n2).dedup
    let common := parts1.filter (fun w => w ∈ parts2)
    let base :=
      if common ≠ [] then
        py_max base (q_add (mkRat 1 2)
          (q_mul (mkRat common.length (max parts1.length parts2.length)) (mkRat 3 10)))
      else base
    let pairRatios :=
      parts1.flatMap (fun p1 => parts2.filterMap (fun p2 =>
        if p1.length > 1 && p2.length > 1 then some (sm_ratio p1 p2) else none))
    let maxPart := pairRatios.foldl py_max (mkRat 0 1)
    if Rat.blt (mkRat 4 5) maxPart then py_max base (q_mul maxPart (mkRat 9 10))
    else base

/-- `DEFAULT_TEAM_MEMBERS`. -/
def default_team_members : List (List Char) :=
  ["Nikhil J Prasad".data, "Kailas S S".data, "S Govind Krishnan".data,
   "Mukundan V S".data]

/-- `NAME_ALIASES` in source order. -/
def name_aliases : List (List Char × List (List Char)) :=
  [("Nikhil J Prasad".data,
    ["nikhil".data, "nik".data, "nikhi".data, "n.j. prasad".data, "njp".data,
     "n j prasad".data]),
   ("Kailas S S".data,
    ["kailas".data, "kaila".data, "kyla".data, "kyle".data, "kailash".data,
     "k.s.s".data, "kss".data, "k s s".data]),
   ("S Govind Krishnan".data,
    ["govind".data, "govin".data, "govi".data, "krishnan".data,
     "s.govind".data, "s govind".data, "sgk".data]),
   ("Mukundan V S".data,
    ["mukundan".data, "mukund".data, "muku".data, "vs".data, "v.s.".data,
     "v s".data, "mvs".data, "m.v.s".data])]

/-- `NAME_ALIASES.get(member, [])`. -/
def aliases_of (member : List Char) : List (List Char) :=
  match name_aliases.find? (fun p => p.1 = member) with
  | some p => p.2
  | none => []

/-- The reverse lookup `_ALIAS_TO_MEMBER` (keys are `alias.lower()`; later
insertions would win, mirrored by searching the reversed list). -/
def alias_to_member (key : List Char) : Option (List Char) :=
  let table := name_aliases.flatMap (fun p => p.2.map (fun al => (py_lower al, p.1)))
  (table.reverse.find? (fun e => e.1 = key)).map (fun e => e.2)

/-- The inputs `match_member_name` treats as "no assignee". -/
def sentinel_assignees : List (List Char) :=
  ["unassigned".data, "none".data, "null".data, "n/a".data, []]

/-- The combined similarity of one member: its own score maxed with every
alias score (`score = max(score, alias_score)` over the alias loop). -/
def member_combined_score (llm_name member : List Char) : ℚ :=
  ((aliases_of member).map (calculate_similarity llm_name)).foldl
    py_max (calculate_similarity llm_name member)

/-- The member scan of `match_member_name`: exact normalized or alias matches
return at once with 1.0, otherwise the best combined similarity (member and
its aliases) is tracked, a strictly greater score displacing the incumbent. -/
def match_loop (llm_name ni : List Char) (threshold : ℚ) :
    List (List Char) → Option (List Char) → ℚ → Option (List Char × ℚ)
  | [], best, best_score =>
    match best with
    | some m =>
      if m ≠ [] && !(Rat.blt best_score threshold) then some (m, best_score)
      else none
    | none => none
  | member :: rest, best, best_score =>
    let mn := normalize_name member
    if ni = mn then some (member, mkRat 1 1)
    else if (aliases_of member).any (fun al => ni = normalize_name al) then
      some (member, mkRat 1 1)
    else
      let score := member_combined_score llm_name member
      if Rat.blt best_score score then
        match_loop llm_name ni threshold rest (some member) score
      else match_loop llm_name ni threshold rest best best_score

/-- `match_member_name(llm_name, members, threshold = 0.6)`. -/
def match_member_name (llm_name : List Char) (members : List (List Char))
    (threshold : ℚ) : Option (List Char × ℚ) :=
  if llm_name = [] || (py_lower llm_name) ∈ sentinel_assignees then none
  else
    let ni := normalize_name llm_name
    match alias_to_member ni with
    | some m => some (m, mkRat 1 1)
    | none => match_loop llm_name ni threshold members none (mkRat 0 1)

/-- `get_member_name`: default members, default threshold, name only. -/
def get_member_name (llm_name : List Char) : Option (List Char) :=
  (match_member_name llm_name default_team_members (mkRat 3 5)).map (fun p => p.1)

/-! ## Python values and a strict JSON parser (`json.loads`) -/

/-- Model of the Python values produced by `json.loads` (numbers keep their
lexeme: no claim computes with them). -/
inductive Json where
  | null
  | bool (b : Bool)
  | num (lex : List Char)
  | str (s : List Char)
  | arr (xs : List Json)
  | obj (kvs : List (List Char × Json))
deriving Repr

/-- Python truthiness of a parsed JSON value (a number is falsy when its
mantissa is all zeros; the non-finite constants are truthy). -/
def py_truthy : Json → Bool
  | .null => false
  | .bool b => b
  | .num lex => (lex.takeWhile (fun c => c ≠ 'e' && c ≠ 'E')).any
      (fun c => '1' ≤ c && c ≤ '9') || is_sub "n".data lex || is_sub "N".data lex
  | .str s => s ≠ []
  | .arr xs => !xs.isEmpty
  | .obj kvs => !kvs.isEmpty

/-- `dict.get(k)` on a parsed object: a duplicate key keeps the last value,
as Python dicts do. -/
def dict_get (kvs : List (List Char × Json)) (k : List Char) : Option Json :=
  (kvs.reverse.find? (fun p => p.1 = k)).map (fun p => p.2)

/-- JSON whitespace (`json.decoder`: space, tab, newline, carriage return). -/
def is_json_ws (c : Char) : Bool :=
  c = ' ' || c = '\t' || c = '\n' || c = '\x0d'

/-- Skip JSON whitespace. -/
def jskip (s : List Char) : List Char := s.dropWhile is_json_ws

/-- Hexadecimal digit test. -/
def is_hex (c : Char) : Bool :=
  is_digit c || ('a' ≤ c && c ≤ 'f') || ('A' ≤ c && c ≤ 'F')

/-- Hexadecimal digit value. -/
def hex_val (c : Char) : Nat :=
  if is_digit c then c.toNat - 48
  else if 'a' ≤ c && c ≤ 'f' then c.toNat - 87
  else c.toNat - 55

/-- JSON string body after the opening quote: strict (control characters
rejected), escapes decoded.  (Lone `\uXXXX` surrogates, which Python keeps,
fall back to `Char.ofNat`'s replacement — no claim depends on them.) -/
def j_string : List Char → Option (List Char × List Char)
  | [] => none
  | '"' :: rest => some ([], rest)
  | '\\' :: 'u' :: h1 :: h2 :: h3 :: h4 :: rest =>
    if is_hex h1 && is_hex h2 && is_hex h3 && is_hex h4 then
      (j_string rest).map (fun p =>
        (Char.ofNat (((hex_val h1 * 16 + hex_val h2) * 16 + hex_val h3) * 16 + hex_val h4)
          :: p.1, p.2))
    else none
  | '\\' :: e :: rest =>
    let dec : Option Char :=
      if e = '"' then some '"'
      else if e = '\\' then some '\\'
      else if e = '/' then some '/'
      else if e = 'b' then some '\x08'
      else if e = 'f' then some '\x0c'
      else if e = 'n' then some '\n'
      else if e = 'r' then some '\x0d'
      else if e = 't' then some '\t'
      else none
    match dec with
    | some c => (j_string rest).map (fun p => (c :: p.1, p.2))
    | none => none
  | c :: rest =>
    if c.toNat < 32 then none
    else (j_string rest).map (fun p => (c :: p.1, p.2))

/-- JSON number at the head: regex
`(-?(?:0|[1-9]\d*))(\.\d+)?([eE][-+]?\d+)?`; returns the lexeme. -/
def j_number (s : List Char) : Option (List Char × List Char) := do
  let (sign, r1) := match s with
    | '-' :: r => (['-'], r)
    | _ => (([] : List Char), s)
  let (ip, r2) ← match r1 with
    | '0' :: r => some (['0'], r)
    | c :: _ =>
      if '1' ≤ c && c ≤ '9' then
        some (r1.takeWhile is_digit, r1.dropWhile is_digit)
      else none
    | [] => none
  let (fp, r3) := match r2 with
    | '.' :: r =>
      let ds := r.takeWhile is_digit
      if ds = [] then (([] : List Char), r2)
      else ('.' :: ds, r.dropWhile is_digit)
    | _ => ([], r2)
  let (ep, r4) := match r3 with
    | e :: r =>
      if e = 'e' || e = 'E' then
        let (sg, rr) := match r with
          | '+' :: r' => (['+'], r')
          | '-' :: r' => (['-'], r')
          | _ => (([] : List Char), r)
        let ds := rr.takeWhile is_digit
        if ds = [] then (([] : List Char), r3)
        else (e :: (sg ++ ds), rr.dropWhile is_digit)
      else ([], r3)
    | [] => ([], r3)
  some (sign ++ ip ++ fp ++ ep, r4)

mutual

/-- JSON value at the head (fuel-indexed recursive descent; the fuel used is
always ample, every recursive call consumes input). -/
def j_value : Nat → List Char → Option (Json × List Char)
  | 0, _ => none
  | fuel + 1, s =>
    match s with
    | '\x7b' :: rest => j_obj fuel (jskip rest)
    | '[' :: rest => j_arr fuel (jskip rest)
    | '"' :: rest => (j_string rest).map (fun p => (Json.str p.1, p.2))
    | _ =>
      if starts_with s "true".data then some (Json.bool true, s.drop 4)
      else if starts_with s "false".data then some (Json.bool false, s.drop 5)
      else if starts_with s "null".data then some (Json.null, s.drop 4)
      else if starts_with s "NaN".data then some (Json.num "NaN".data, s.drop 3)
      else if starts_with s "Infinity".data then
        some (Json.num "Infinity".data, s.drop 8)
      else if starts_with s "-Infinity".data then
        some (Json.num "-Infinity".data, s.drop 9)
      else (j_number s).map (fun p => (Json.num p.1, p.2))

/-- Object tail after `{` and whitespace. -/
def j_obj : Nat → List Char → Option (Json × List Char)
  | 0, _ => none
  | fuel + 1, s =>
    match s with
    | '\x7d' :: rest => some (Json.obj [], rest)
    | _ => j_members fuel s []

/-- One `"key": value` member then `,` (continue) or `}` (finish); no
trailing comma allowed, exactly as the strict `json` decoder. -/
def j_members : Nat → List Char → List (List Char × Json) →
    Option (Json × List Char)
  | 0, _, _ => none
  | fuel + 1, s, acc =>
    match s with
    | '"' :: rest => do
      let (k, r1) ← j_string rest
      match jskip r1 with
      | ':' :: r3 => do
        let (v, r4) ← j_value fuel (jskip r3)
        match jskip r4 with
        | ',' :: r6 => j_members fuel (jskip r6) ((k, v) :: acc)
        | '\x7d' :: r6 => some (Json.obj ((k, v) :: acc).reverse, r6)
        | _ => none
      | _ => none
    | _ => none

/-- Array tail after `[` and whitespace. -/
def j_arr : Nat → List Char → Option (Json × List Char)
  | 0, _ => none
  | fuel + 1, s =>
    match s with
    | ']' :: rest => some (Json.arr [], rest)
    | _ => j_elems fuel s []

/-- One array element then `,` (continue) or `]` (finish). -/
def j_elems : Nat → List Char → List Json → Option (Json × List Char)
  | 0, _, _ => none
  | fuel + 1, s, acc => do
    let (v, r1) ← j_value fuel s
    match jskip r1 with
    | ',' :: r2 => j_elems fuel (jskip r2) (v :: acc)
    | ']' :: r2 => some (Json.arr (v :: acc).reverse, r2)
    | _ => none

end

/-- `json.loads`: a single JSON value surrounded by whitespace. -/
def json_loads (s : List Char) : Option Json :=
  match j_value (s.length + 1) (jskip s) with
  | some (v, rest) => if jskip rest = [] then some v else none
  | none => none

/-! ## `app/task_extractor.py` -/

/-- Index of the first occurrence of the substring `w` in `s`. -/
def find_sub_idx (w : List Char) : List Char → Option Nat
  | [] => if starts_with [] w then some 0 else none
  | c :: rest =>
    if starts_with (c :: rest) w then some 0
    else (find_sub_idx w rest).map (fun i => i + 1)

/-- Python `s.split(w, 1)[1]`: the part after the first occurrence of `w`. -/
def after_first (w s : List Char) : List Char :=
  match find_sub_idx w s with
  | some i => s.drop (i + w.length)
  | none => s

/-- Python `s.split(w, 1)[0]`: the part before the first occurrence. -/
def before_first (w s : List Char) : List Char :=
  match find_sub_idx w s with
  | some i => s.take i
  | none => s

/-- Python `s.split(w)` for nonempty `w` (fuel-indexed, ample). -/
def split_all_aux (w : List Char) : Nat → List Char → List (List Char)
  | 0, s => [s]
  | fuel + 1, s =>
    match find_sub_idx w s with
    | some i => s.take i :: split_all_aux w fuel (s.drop (i + w.length))
    | none => [s]

/-- Python `s.split(w)` for nonempty `w`. -/
def split_all (w s : List Char) : List (List Char) :=
  split_all_aux w (s.length + 1) s

/-- `clean_json_response`: strip, remove markdown code fences, cut to the
outermost brace span. -/
def clean_json_response (response_text : List Char) : List Char :=
  if response_text = [] then "\x7b\x22tasks\x22: []\x7d".data
  else
    let text := py_strip response_text
    let text :=
      if is_sub "```json".data text then
        let t := after_first "```json".data text
        if is_sub "```".data t then before_first "```".data t else t
      else if is_sub "```".data text then
        let parts := split_all "```".data text
        if parts.length ≥ 2 then parts.getD 1 [] else text
      else text
    let text := py_strip text
    match find_char '\x7b' text, rfind_char '\x7d' text with
    | some si, some ei =>
      if ei > si then (text.take (ei + 1)).drop si else text
    | _, _ => text

/-- The single-quote character. -/
def squote : Char := Char.ofNat 39

/-- Replace every occurrence of character `a` by `b` (Python `str.replace`
for one-character arguments). -/
def replace_char (a b : Char) (s : List Char) : List Char :=
  s.map (fun c => if c = a then b else c)

/-- After a `,`, skip `\s*` and demand `close`; `some` returns the tail after
the match. -/
def comma_close_tail (close : Char) (rest : List Char) : Option (List Char) :=
  match rest.dropWhile is_py_space with
  | x :: t => if x = close then some t else none
  | [] => none

/-- `re.sub(r',\s*' + close, close, s)`: leftmost, non-overlapping. -/
def sub_comma_close_aux (close : Char) : Nat → List Char → List Char
  | 0, s => s
  | _ + 1, [] => []
  | fuel + 1, c :: rest =>
    if c = ',' then
      match comma_close_tail close rest with
      | some t => close :: sub_comma_close_aux close fuel t
      | none => ',' :: sub_comma_close_aux close fuel rest
    else c :: sub_comma_close_aux close fuel rest

/-- `re.sub(r',\s*' + close, close, s)`. -/
def sub_comma_close (close : Char) (s : List Char) : List Char :=
  sub_comma_close_aux close (s.length + 1) s

/-- The lazy middle of `\[\s*\{.*?\}\s*\]` (DOTALL): find the earliest `}`
followed by `\s*]`; returns the matched tail from the current position
through the closing `]`, and the remainder. -/
def lazy_close : List Char → Option (List Char × List Char)
  | [] => none
  | c :: rest =>
    if c = '\x7d' then
      match rest.dropWhile is_py_space with
      | ']' :: tail => some ('\x7d' :: (rest.takeWhile is_py_space ++ [']']), tail)
      | _ => (lazy_close rest).map (fun p => (c :: p.1, p.2))
    else (lazy_close rest).map (fun p => (c :: p.1, p.2))

/-- `re.search(r'\[\s*\{.*?\}\s*\]', s, re.DOTALL)`: leftmost match text. -/
def search_bracket_obj : List Char → Option (List Char)
  | [] => none
  | c :: rest =>
    if c = '[' then
      let ws := rest.takeWhile is_py_space
      match rest.dropWhile is_py_space with
      | '\x7b' :: r3 =>
        match lazy_close r3 with
        | some p => some ('[' :: (ws ++ '\x7b' :: p.1))
        | none => search_bracket_obj rest
      | _ => search_bracket_obj rest
    else search_bracket_obj rest

/-- `parse_json_safely`: direct parse, then the three repair strategies, each
applied to the cleaned text independently. -/
def parse_json_safely (json_text : List Char) : Option Json :=
  if json_text = [] || py_strip json_text = [] then none
  else
    let text := clean_json_response json_text
    match json_loads text with
    | some v => some v
    | none =>
      match json_loads (replace_char squote '"' text) with
      | some v => some v
      | none =>
        let fixed := sub_comma_close ']' (sub_comma_close '\x7d' text)
        match json_loads fixed with
        | some v => some v
        | none =>
          match search_bracket_obj text with
          | some mtext =>
            match json_loads mtext with
            | some tasks => some (Json.obj [("tasks".data, tasks)])
            | none => none
          | none => none

/-! ## A small backtracking regex engine

Faithful to the fragment of `re` the fallback patterns use: character
classes, ordered alternation, greedy and lazy repetition, greedy option,
word boundary, numbered capture groups, `IGNORECASE` folded into the
classes.  Matching is continuation-passing with ample fuel (the fuel bounds
recursion depth, which the fixed patterns keep linear in the input). -/

/-- ASCII letter (any case: the source compiles every pattern with
`re.IGNORECASE`, under which `[A-Z]` and `[a-z]` both match all letters). -/
def is_letter (c : Char) : Bool :=
  ('a' ≤ c && c ≤ 'z') || ('A' ≤ c && c ≤ 'Z')

/-- Regex word character (`\w`, ASCII fragment), for `\b`. -/
def is_word_char (c : Char) : Bool :=
  is_letter c || is_digit c || c = '_'

inductive Rx where
  | eps
  | cls (p : Char → Bool)
  | seq (a b : Rx)
  | alt (a b : Rx)
  | star (lzy : Bool) (a : Rx)
  | grp (idx : Nat) (a : Rx)
  | wordb

/-- `\b` at position `pos` of `s`. -/
def at_word_boundary (s : List Char) (pos : Nat) : Bool :=
  let prev := if pos = 0 then false else is_word_char (s.getD (pos - 1) ' ')
  let cur := if pos < s.length then is_word_char (s.getD pos ' ') else false
  prev != cur

/-- Captures: `(group, start, end)`, most recent first. -/
abbrev RxCaps := List (Nat × Nat × Nat)

/-- The backtracking matcher.  `k` is the continuation receiving the position
and captures after `r`; alternation tries the left branch first; a greedy
star tries the body first, a lazy star tries the continuation first; empty
star iterations are cut off as `re` does. -/
def rx_run (s : List Char) :
    Nat → Rx → Nat → RxCaps → (Nat → RxCaps → Option (Nat × RxCaps)) →
    Option (Nat × RxCaps)
  | 0, _, _, _, _ => none
  | fuel + 1, r, pos, caps, k =>
    match r with
    | .eps => k pos caps
    | .cls p =>
      match s.get? pos with
      | some c => if p c then k (pos + 1) caps else none
      | none => none
    | .seq a b =>
      rx_run s fuel a pos caps (fun p' c' => rx_run s fuel b p' c' k)
    | .alt a b =>
      match rx_run s fuel a pos caps k with
      | some res => some res
      | none => rx_run s fuel b pos caps k
    | .star lzy a =>
      if lzy then
        match k pos caps with
        | some res => some res
        | none =>
          rx_run s fuel a pos caps (fun p' c' =>
            if p' = pos then none else rx_run s fuel (.star lzy a) p' c' k)
      else
        match rx_run s fuel a pos caps (fun p' c' =>
            if p' = pos then none else rx_run s fuel (.star lzy a) p' c' k) with
        | some res => some res
        | none => k pos caps
    | .grp i a =>
      rx_run s fuel a pos caps (fun p' c' => k p' ((i, pos, p') :: c'))
    | .wordb => if at_word_boundary s pos then k pos caps else none

/-- Greedy `+`. -/
def rx_plus (a : Rx) : Rx := .seq a (.star false a)

/-- Lazy `+?`. -/
def rx_plus_lazy (a : Rx) : Rx := .seq a (.star true a)

/-- Greedy `?`. -/
def rx_opt (a : Rx) : Rx := .alt a .eps

/-- Case-insensitive literal. -/
def lit_ci (w : List Char) : Rx :=
  w.foldr (fun c acc => .seq (.cls (fun x => lower_char x = lower_char c)) acc) .eps

/-- Fuel for one anchored match attempt. -/
def rx_fuel (s : List Char) : Nat := 64 * (s.length + 2)

/-- `finditer`: scan start positions left to right, non-overlapping matches;
a (theoretically) empty match advances by one. -/
def rx_find_iter_aux (r : Rx) (s : List Char) : Nat → Nat → List RxCaps
  | 0, _ => []
  | fuel + 1, pos =>
    if pos > s.length then []
    else
      match rx_run s (rx_fuel s) r pos [] (fun p c => some (p, c)) with
      | some (endp, caps) =>
        if endp = pos then caps :: rx_find_iter_aux r s fuel (pos + 1)
        else caps :: rx_find_iter_aux r s fuel endp
      | none => rx_find_iter_aux r s fuel (pos + 1)

/-- All matches of `r` over `s`, as capture sets. -/
def rx_find_iter (r : Rx) (s : List Char) : List RxCaps :=
  rx_find_iter_aux r s (s.length + 2) 0

/-- `match.group(i)` text (most recent capture of the group wins). -/
def group_str (s : List Char) (caps : RxCaps) (i : Nat) : Option (List Char) :=
  (caps.find? (fun t => t.1 = i)).map (fun t => (s.take t.2.2).drop t.2.1)

/-! ## The four fallback patterns of `extract_tasks_from_text_fallback`

Group numbering: 0 = `assignee`, 1 = `task`, 2 = `date`. -/

/-- `[^.!?]` -/
def not_sentence_end : Rx := .cls (fun c => !(c = '.' || c = '!' || c = '?'))

/-- `[^.!?,]` -/
def not_sentence_end_comma : Rx :=
  .cls (fun c => !(c = '.' || c = '!' || c = '?' || c = ','))

/-- `\s+` -/
def ws_plus : Rx := rx_plus (.cls is_py_space)

/-- `[A-Z][a-z]+` (under `IGNORECASE`: at least two letters). -/
def cap_word : Rx := .seq (.cls is_letter) (rx_plus (.cls is_letter))

/-- `\b[A-Z][a-z]+(?:\s+[A-Z][a-z]+)*` captured as `assignee`. -/
def assignee_rx : Rx :=
  .grp 0 (.seq .wordb (.seq cap_word (.star false (.seq ws_plus cap_word))))

/-- `(?:will|should|needs?\s+to|is\s+going\s+to|must)` -/
def modal_rx : Rx :=
  .alt (lit_ci "will".data)
    (.alt (lit_ci "should".data)
      (.alt (.seq (lit_ci "need".data)
              (.seq (rx_opt (lit_ci "s".data)) (.seq ws_plus (lit_ci "to".data))))
        (.alt (.seq (lit_ci "is".data)
                (.seq ws_plus (.seq (lit_ci "going".data)
                  (.seq ws_plus (lit_ci "to".data)))))
          (lit_ci "must".data))))

/-- Pattern 1: `assignee` + modal + `(?:do\s+)?` + lazy `task` + optional
`by date` + sentence end. -/
def pattern1 : Rx :=
  .seq assignee_rx (.seq ws_plus (.seq modal_rx (.seq ws_plus
    (.seq (rx_opt (.seq (lit_ci "do".data) ws_plus))
      (.seq (.grp 1 (rx_plus_lazy not_sentence_end))
        (.seq (rx_opt (.seq ws_plus (.seq (lit_ci "by".data)
            (.seq ws_plus (.grp 2 (rx_plus not_sentence_end))))))
          (.cls (fun c => c = '.' || c = '!' || c = '?'))))))))

/-- Pattern 2: lazy `task` + `is assigned to` + `assignee`. -/
def pattern2 : Rx :=
  .seq (.grp 1 (rx_plus_lazy not_sentence_end))
    (.seq ws_plus (.seq (lit_ci "is".data)
      (.seq ws_plus (.seq (lit_ci "assigned".data)
        (.seq ws_plus (.seq (lit_ci "to".data) (.seq ws_plus assignee_rx)))))))

/-- `[A-Za-z]+` -/
def letters_plus : Rx := rx_plus (.cls is_letter)

/-- Pattern 3: `(?:action\s+item|task)[:\s]+` + loose `assignee` +
`(?:to\s+)?` + greedy `task`. -/
def pattern3 : Rx :=
  .seq (.alt (.seq (lit_ci "action".data) (.seq ws_plus (lit_ci "item".data)))
        (lit_ci "task".data))
    (.seq (rx_plus (.cls (fun c => c = ':' || is_py_space c)))
      (.seq (.grp 0 (.seq letters_plus (.star false (.seq ws_plus letters_plus))))
        (.seq ws_plus (.seq (rx_opt (.seq (lit_ci "to".data) ws_plus))
          (.grp 1 (rx_plus not_sentence_end))))))

/-- Pattern 4: single-word `assignee` + `should|could|can` + an action verb +
greedy comma-free `task`. -/
def pattern4 : Rx :=
  .seq (.grp 0 (.seq .wordb cap_word))
    (.seq ws_plus (.seq (.alt (lit_ci "should".data)
        (.alt (lit_ci "could".data) (lit_ci "can".data)))
      (.seq ws_plus (.seq (.alt (.seq (lit_ci "work".data)
            (.seq ws_plus (lit_ci "on".data)))
          (.alt (lit_ci "handle".data) (.alt (lit_ci "complete".data)
            (.alt (lit_ci "start".data) (.alt (lit_ci "begin".data)
              (lit_ci "finish".data))))))
        (.seq ws_plus (.grp 1 (rx_plus not_sentence_end_comma)))))))

/-- A Python value that is either a string or `None`, as parsed JSON. -/
def json_of_opt_str : Option (List Char) → Json
  | some s => Json.str s
  | none => Json.null

/-- One extracted raw task, as the Python dict literal of the source. -/
def mk_fallback_task (desc : List Char) (assignee : Option (List Char))
    (due : Option (List Char)) : List (List Char × Json) :=
  [("description".data, Json.str desc),
   ("assignee".data, json_of_opt_str assignee),
   ("due_date".data, json_of_opt_str due)]

/-- Fold one pattern's matches into the task list, deduplicating on the exact
stripped description and skipping empty descriptions. -/
def fb_collect (s : List Char) :
    List RxCaps → List (List Char) → List (List (List Char × Json)) →
    List (List Char) × List (List (List Char × Json))
  | [], seen, acc => (seen, acc)
  | caps :: more, seen, acc =>
    let task_desc := match group_str s caps 1 with
      | some t => py_strip t
      | none => []
    let assignee := (group_str s caps 0).map py_strip
    let due_date := match group_str s caps 2 with
      | some d => if d ≠ [] then some (py_strip d) else none
      | none => none
    if task_desc ≠ [] && !(seen.contains task_desc) then
      fb_collect s more (task_desc :: seen)
        (acc ++ [mk_fallback_task task_desc assignee due_date])
    else fb_collect s more seen acc

/-- `extract_tasks_from_text_fallback`: the four patterns in order, a shared
seen-set across patterns. -/
def extract_tasks_from_text_fallback (text : List Char) :
    List (List (List Char × Json)) :=
  let r1 := fb_collect text (rx_find_iter pattern1 text) [] []
  let r2 := fb_collect text (rx_find_iter pattern2 text) r1.1 r1.2
  let r3 := fb_collect text (rx_find_iter pattern3 text) r2.1 r2.2
  (fb_collect text (rx_find_iter pattern4 text) r3.1 r3.2).2

/-! ## `validate_and_normalize_task` and `safe_extract_tasks` -/

/-- Python `str()` of a parsed JSON value (exact for strings; the other
cases — only ever reached for non-string due dates — are rendered
approximately, no claim depends on them). -/
def py_str_of : Json → List Char
  | .str s => s
  | .num lex => lex
  | .bool b => if b then "True".data else "False".data
  | .null => "None".data
  | .arr _ => "[...]".data
  | .obj _ => "\x7b...\x7d".data

/-- `a or b or dflt` over optional dict lookups (Python `or` keeps the first
truthy value). -/
def py_or2 (a b : Option Json) (dflt : Json) : Json :=
  let v1 := a.getD .null
  if py_truthy v1 then v1
  else
    let v2 := b.getD .null
    if py_truthy v2 then v2 else dflt

structure NormalizedTask where
  description : List Char
  assignee : Option (List Char)
  due_date : Option (List Char)
deriving DecidableEq, Repr

/-- The assignee resolution of `validate_and_normalize_task`:
`if raw_assignee and raw_assignee.lower() not in [...]` (`.lower()` raises on
a non-string), then `matched or raw_assignee` — the raw text is kept when no
roster member matches. -/
def resolve_assignee (raw_assignee : Json) :
    Except (List Char) (Option (List Char)) :=
  if py_truthy raw_assignee then
    match raw_assignee with
    | .str a =>
      if !((py_lower a) ∈ sentinel_assignees) then
        match get_member_name a with
        | some m => .ok (some m)
        | none => .ok (some a)
      else .ok none
    | _ => .error "AttributeError: lower".data
  else .ok none

/-- The due-date resolution of `validate_and_normalize_task`:
`parse_due_date(str(raw_date))` then ISO formatting. -/
def resolve_due_date (dp : List Char → Option PyDate) (today : PyDate)
    (raw_date : Json) : Except (List Char) (Option (List Char)) :=
  if py_truthy raw_date then
    match parse_due_date dp today (py_str_of raw_date) with
    | .error e => .error e
    | .ok parsed => .ok (format_date_iso parsed)
  else .ok none

/-- `validate_and_normalize_task`.  Python evaluates the assignee branch
(`raw_assignee.lower()`, which raises on a non-string) and the due-date
branch before the final `description.strip()` (which raises on a non-string);
the exception propagation order mirrors that. -/
def validate_and_normalize_task (dp : List Char → Option PyDate) (today : PyDate)
    (task : List (List Char × Json)) : Except (List Char) NormalizedTask :=
  let descVal := py_or2 (dict_get task "description".data)
    (dict_get task "title".data) (Json.str "Untitled Task".data)
  let raw_assignee := (dict_get task "assignee".data).getD .null
  match resolve_assignee raw_assignee with
  | .error e => .error e
  | .ok assignee =>
    let raw_date := py_or2 (dict_get task "due_date".data)
      (dict_get task "deadline".data) .null
    match resolve_due_date dp today raw_date with
    | .error e => .error e
    | .ok due =>
      match descVal with
      | .str s => .ok ⟨py_strip s, assignee, due⟩
      | _ => .error "AttributeError: strip".data

/-- `in` on an arbitrary parsed value (`"tasks" in parsed`): key membership
for dicts, element equality for lists, substring for strings, `TypeError`
otherwise. -/
def json_contains (v : Json) (k : List Char) : Except (List Char) Bool :=
  match v with
  | .obj kvs => .ok (kvs.any (fun p => p.1 = k))
  | .arr xs => .ok (xs.any (fun x => match x with | .str s => s = k | _ => false))
  | .str s => .ok (is_sub k s)
  | _ => .error "TypeError: argument of type is not iterable".data

/-- `parsed.get("tasks", [])`: dict lookup with default, `AttributeError` on
non-dicts. -/
def json_get_default (v : Json) (k : List Char) (dflt : Json) :
    Except (List Char) Json :=
  match v with
  | .obj kvs => .ok ((dict_get kvs k).getD dflt)
  | _ => .error "AttributeError: get".data

structure ExtractResult where
  tasks : List NormalizedTask
  extraction_method : List Char
  raw_count : Nat
deriving DecidableEq, Repr

/-- Strategy 1 of `safe_extract_tasks`: parse the LLM response, wrap, and
validate each dict item. -/
def json_strategy (dp : List Char → Option PyDate) (today : PyDate)
    (llm_response : Option (List Char)) :
    Except (List Char) (List NormalizedTask × List Char) :=
  match llm_response with
  | some r =>
    if r ≠ [] then
      match parse_json_safely r with
      | some parsed =>
        if py_truthy parsed then do
          let hasT ← json_contains parsed "tasks".data
          if hasT then do
            let rawT ← json_get_default parsed "tasks".data (Json.arr [])
            match rawT with
            | .arr xs =>
              if !xs.isEmpty then do
                let dicts := xs.filterMap (fun t =>
                  match t with | .obj kvs => some kvs | _ => none)
                let ts ← dicts.mapM (validate_and_normalize_task dp today)
                pure (ts, "json".data)
              else pure ([], "none".data)
            | _ => pure ([], "none".data)
          else pure ([], "none".data)
        else pure ([], "none".data)
      | none => pure ([], "none".data)
    else pure ([], "none".data)
  | none => pure ([], "none".data)

/-- The fallback source selection of `safe_extract_tasks`: the summary
regexes if they yield anything, else the transcript regexes, else keep the
strategy-1 method label with no tasks. -/
def fb_choice (transcript : List Char) (summary : Option (List Char))
    (method1 : List Char) :
    List (List (List Char × Json)) × List Char :=
  let fb_s := match summary with
    | some sm => if sm ≠ [] then extract_tasks_from_text_fallback sm else []
    | none => []
  if !fb_s.isEmpty then (fb_s, "regex_summary".data)
  else
    let fb_t := if transcript ≠ [] then extract_tasks_from_text_fallback transcript
      else []
    if !fb_t.isEmpty then (fb_t, "regex_transcript".data) else ([], method1)

/-- Strategy 2 and the final filter of `safe_extract_tasks`: regex fallback
over summary then transcript when strategy 1 yielded nothing, then drop tasks
with missing or short descriptions. -/
def fallback_stage (dp : List Char → Option PyDate) (today : PyDate)
    (transcript : List Char) (summary : Option (List Char))
    (tasks1 : List NormalizedTask) (method1 : List Char) :
    Except (List Char) ExtractResult :=
  if tasks1.isEmpty then do
    let fb := (fb_choice transcript summary method1).1
    let method2 := (fb_choice transcript summary method1).2
    let validated ← fb.mapM (validate_and_normalize_task dp today)
    let valid := validated.filter
      (fun t => t.description ≠ [] && t.description.length > 3)
    pure ⟨valid, method2, validated.length⟩
  else
    let valid := tasks1.filter
      (fun t => t.description ≠ [] && t.description.length > 3)
    pure ⟨valid, method1, tasks1.length⟩

/-- `safe_extract_tasks`. -/
def safe_extract_tasks (dp : List Char → Option PyDate) (today : PyDate)
    (transcript : List Char) (summary : Option (List Char))
    (llm_response : Option (List Char)) : Except (List Char) ExtractResult := do
  let (tasks1, method1) ← json_strategy dp today llm_response
  fallback_stage dp today transcript summary tasks1 method1

/-! ## `app/pipeline.py`: the LangGraph stage pipeline

External collaborators (LLM, Jira, Confluence, database) are modelled as an
environment of call outcomes; `Except.error` is a raised exception.  Each
node function mirrors its Python counterpart's `try/except` structure and
state writes; the graph of `create_pipeline` is the conditional-edge
structure over `should_continue`. -/

structure JiraEnv where
  is_configured : Bool
  /-- `check_for_duplicate` outcome per task index: raised, or an optional
  existing key. -/
  dup_results : List (Except (List Char) (Option (List Char)))
  /-- `create_issue` outcome per task index: raised, or an optional new
  key. -/
  create_results : List (Except (List Char) (Option (List Char)))

structure ConfluenceEnv where
  is_configured : Bool
  /-- `create_or_update(_project)_page`: raised, falsy, or
  `(page_id, page_url, action)`. -/
  page_result : Except (List Char) (Option (List Char × List Char × List Char))

structure PipelineEnv where
  llm_configured : Bool
  title_result : Except (List Char) (List Char)
  summary_result : Except (List Char) (List Char)
  project_result : Except (List Char) (Option (List Char))
  /-- `llm_client.extract_tasks(...)["tasks"]`: raised, or a task-dict
  list. -/
  extract_result : Except (List Char) (List (List (List Char × Json)))
  /-- `get_jira_client()`: its constructor can raise (for instance an
  `AttributeError` on an unset server setting). -/
  jira_client : Except (List Char) JiraEnv
  confluence_client : Except (List Char) ConfluenceEnv
  /-- `store_results` database writes: raised, or
  `(transcription_id, meeting_id, task_ids)`. -/
  store_result : Except (List Char) (Nat × Nat × List Nat)

structure MeetingState where
  meeting_date : List Char
  transcript : List Char
  filename : Option (List Char)
  meeting_title : Option (List Char)
  project_name : Option (List Char)
  summary : Option (List Char)
  tasks : List (List (List Char × Json))
  jira_keys : List (List Char)
  skipped_tasks : List (List (List Char × Json))
  confluence_page_id : Option (List Char)
  confluence_url : Option (List Char)
  transcription_id : Option Nat
  meeting_id : Option Nat
  task_ids : List Nat
  decisions : List (List Char)
  error : Option (List Char)
  current_step : List Char

/-- The initial state `process_meeting` builds. -/
def initial_state (transcript : List Char) (meeting_date : List Char)
    (filename : Option (List Char)) : MeetingState :=
  ⟨meeting_date, transcript, filename, none, none, none, [], [], [], none,
   none, none, none, [], [], none, "initialized".data⟩

/-- Node `summarize_meeting`: title, summary, project extraction; any raise
sets the terminal error. -/
def summarize_meeting (env : PipelineEnv) (st : MeetingState) : MeetingState :=
  let st := { st with current_step := "summarize_meeting".data }
  if !env.llm_configured then
    { st with error := some "Failed to summarize meeting: LLM client not configured".data }
  else
    match env.title_result with
    | .error e => { st with error := some ("Failed to summarize meeting: ".data ++ e) }
    | .ok title =>
      let st := { st with meeting_title := some title,
                          decisions := st.decisions ++ ["Meeting title".data] }
      match env.summary_result with
      | .error e => { st with error := some ("Failed to summarize meeting: ".data ++ e) }
      | .ok sm =>
        let st := { st with summary := some sm }
        match env.project_result with
        | .error e => { st with error := some ("Failed to summarize meeting: ".data ++ e) }
        | .ok proj =>
          { st with project_name := proj,
                    decisions := st.decisions ++ ["Project decision".data] }

/-- Node `extract_tasks`: skipped if an error is already set; any raise sets
the terminal error. -/
def extract_tasks (env : PipelineEnv) (st : MeetingState) : MeetingState :=
  if st.error.isSome then st
  else
    let st := { st with current_step := "extract_tasks".data }
    if !env.llm_configured then
      { st with error := some "Failed to extract tasks: LLM client not configured".data }
    else
      match env.extract_result with
      | .error e => { st with error := some ("Failed to extract tasks: ".data ++ e) }
      | .ok tasks => { st with tasks := tasks }

/-- Per-task loop of `create_jira_issues` (each task has its own absorbing
`try/except`): returns `(jira_keys, skipped_tasks)`. -/
def jira_task_loop (jc : JiraEnv) (tasks : List (List (List Char × Json))) :
    List (List Char) × List (List (List Char × Json)) :=
  (List.range tasks.length).foldl
    (fun (acc : List (List Char) × List (List (List Char × Json))) i =>
      match jc.dup_results.getD i (.ok none) with
      | .error _ => acc
      | .ok (some _existing) => (acc.1, acc.2 ++ [tasks.getD i []])
      | .ok none =>
        match jc.create_results.getD i (.ok none) with
        | .error _ => acc
        | .ok (some key) => (acc.1 ++ [key], acc.2)
        | .ok none => acc)
    ([], [])

/-- Node `create_jira_issues`.  The outer `except` (reached for instance when
`get_jira_client()` raises) logs and stores the partial key lists but — its
handler has no `state["error"] = ...` — leaves the terminal error unset. -/
def create_jira_issues (env : PipelineEnv) (st : MeetingState) : MeetingState :=
  if st.error.isSome then st
  else if st.tasks.isEmpty then
    { st with jira_keys := [],
              decisions := st.decisions ++ ["No tasks extracted - skipping Jira issue creation".data] }
  else
    let st := { st with current_step := "create_jira_issues".data }
    match env.jira_client with
    | .error _e => { st with jira_keys := [], skipped_tasks := [] }
    | .ok jc =>
      if !jc.is_configured then
        { st with jira_keys := [],
                  decisions := st.decisions ++ ["Jira not configured - tickets not created".data] }
      else
        let (keys, skipped) := jira_task_loop jc st.tasks
        { st with jira_keys := keys, skipped_tasks := skipped }

/-- Node `update_confluence_page`.  Its `except` handler deliberately does
not set the error state (source comment: a Confluence failure should not halt
the pipeline). -/
def update_confluence_page (env : PipelineEnv) (st : MeetingState) :
    MeetingState :=
  let st := { st with current_step := "update_confluence_page".data }
  match env.confluence_client with
  | .error _ => st
  | .ok cc =>
    if !cc.is_configured then
      { st with decisions := st.decisions ++ ["Confluence not configured - page not created".data] }
    else
      match cc.page_result with
      | .error _ => st
      | .ok (some r) =>
        { st with confluence_page_id := some r.1, confluence_url := some r.2.1,
                  decisions := st.decisions ++ ["Page processed".data] }
      | .ok none =>
        { st with decisions := st.decisions ++ ["Confluence page creation failed".data] }

/-- Node `store_results`: persists whatever is available; its own failure
sets the terminal error (the run still returns a result). -/
def store_results (env : PipelineEnv) (st : MeetingState) : MeetingState :=
  let st := { st with current_step := "store_results".data }
  match env.store_result with
  | .ok r =>
    { st with transcription_id := some r.1, meeting_id := some r.2.1,
              task_ids := r.2.2 }
  | .error e => { st with error := some ("Failed to store results: ".data ++ e) }

/-- `should_continue`. -/
def should_continue (st : MeetingState) : List Char :=
  if st.error.isSome then "end".data else "continue".data

/-- The compiled graph of `create_pipeline`: the fixed node order with the
three conditional `should_continue` edges after summarize / extract / create,
an unconditional edge from the Confluence node to `store_results`, and
`store_results` to `END`.  Returns the final state and the executed-node
trace. -/
def run_pipeline (env : PipelineEnv) (init : MeetingState) :
    MeetingState × List (List Char) :=
  let s1 := summarize_meeting env init
  if should_continue s1 = "end".data then
    (store_results env s1, ["summarize_meeting".data, "store_results".data])
  else
    let s2 := extract_tasks env s1
    if should_continue s2 = "end".data then
      (store_results env s2,
       ["summarize_meeting".data, "extract_tasks".data, "store_results".data])
    else
      let s3 := create_jira_issues env s2
      if should_continue s3 = "end".data then
        (store_results env s3,
         ["summarize_meeting".data, "extract_tasks".data,
          "create_jira_issues".data, "store_results".data])
      else
        let s4 := update_confluence_page env s3
        (store_results env s4,
         ["summarize_meeting".data, "extract_tasks".data,
          "create_jira_issues".data, "update_confluence_page".data,
          "store_results".data])

/-! ## `app/recording_watcher.py`: concurrency / idempotency guard

`_processed_files` is the settled set, `_currently_processing` the in-flight
set.  Effects record which external work actually ran, so that "the pipeline
was not invoked" is expressible. -/

inductive WEffect where
  | transcribe
  | llm_summarize
  | llm_extract
  | jira_call
  | confluence_call
  | db_store
deriving DecidableEq, Repr

structure WatcherState where
  processed_files : List (List Char)
  currently_processing : List (List Char)
deriving DecidableEq, Repr

/-- `set.add`. -/
def set_add (x : List Char) (l : List (List Char)) : List (List Char) :=
  if x ∈ l then l else x :: l

structure WatcherEnv where
  transcriber_ready : Bool
  transcribe_result : Except (List Char) (List Char)
  llm_configured : Bool
  summarize_result : Except (List Char) (List Char)
  /-- `llm.extract_tasks` raised (then `llm_response = None`). -/
  extract_tasks_raises : Bool
  /-- `str(tasks_result)` otherwise. -/
  llm_tasks_repr : List Char
  dp : List Char → Option PyDate
  today : PyDate
  jira_configured : Bool
  jira_create : List (Except (List Char) (Option (List Char)))
  confluence_configured : Bool
  confluence_result : Except (List Char) (Option (List Char × List Char))
  meeting_store : Except (List Char) Nat

structure ProcResultW where
  filename : List Char
  transcript : Option (List Char)
  summary : Option (List Char)
  tasks : List NormalizedTask
  jira_tickets : List (List Char)
  confluence_page_id : Option (List Char)
  confluence_url : Option (List Char)
  meeting_id : Option Nat
  error : Option (List Char)
  processed : Bool
deriving DecidableEq, Repr

/-- The initialized result dict of `process_recording_file`. -/
def base_result (filename : List Char) : ProcResultW :=
  ⟨filename, none, none, [], [], none, none, none, none, false⟩

/-- Step 2 (summary and safe task extraction; every failure absorbed). -/
def watcher_llm_step (env : WatcherEnv) (transcript : List Char) :
    Option (List Char) × List NormalizedTask × List WEffect :=
  if !env.llm_configured then (none, [], [])
  else
    let summary := match env.summarize_result with
      | .ok sm => sm
      | .error _ => transcript.take 500
    let llm_response := if env.extract_tasks_raises then none
      else some env.llm_tasks_repr
    let tasks := match safe_extract_tasks env.dp env.today transcript
        (some summary) llm_response with
      | .ok res => res.tasks
      | .error _ => []
    (some summary, tasks, [WEffect.llm_summarize, WEffect.llm_extract])

/-- Step 3 (Jira tickets; per-ticket and whole-step failures absorbed). -/
def watcher_jira_step (env : WatcherEnv) (tasks : List NormalizedTask) :
    List (List Char) × List WEffect :=
  if tasks.isEmpty then ([], [])
  else if !env.jira_configured then ([], [])
  else
    ((List.range tasks.length).foldl
      (fun acc i =>
        match env.jira_create.getD i (.ok none) with
        | .ok (some key) => acc ++ [key]
        | _ => acc)
      [],
     List.replicate tasks.length WEffect.jira_call)

/-- Step 4 (Confluence page; failures absorbed). -/
def watcher_confluence_step (env : WatcherEnv) :
    (Option (List Char) × Option (List Char)) × List WEffect :=
  if !env.confluence_configured then ((none, none), [])
  else
    match env.confluence_result with
    | .ok (some r) => ((some r.1, some r.2), [WEffect.confluence_call])
    | .ok none => ((none, none), [WEffect.confluence_call])
    | .error _ => ((none, none), [WEffect.confluence_call])

/-- Step 5 (meeting record; failure absorbed). -/
def watcher_store_step (env : WatcherEnv) : Option Nat × List WEffect :=
  match env.meeting_store with
  | .ok mid => (some mid, [WEffect.db_store])
  | .error _ => (none, [WEffect.db_store])

/-- `process_recording_file`.  The in-flight check returns at once; the
in-flight insert precedes the `try`, whose `finally` always discards; a
transcription failure marks the file processed and returns; steps 2–5 absorb
their own failures and the success path marks the file processed. -/
def process_recording_file (env : WatcherEnv) (filename : List Char)
    (st : WatcherState) : ProcResultW × WatcherState × List WEffect :=
  if filename ∈ st.currently_processing then
    ({ base_result filename with
        error := some "Already being processed".data, processed := false },
     st, [])
  else
    let st1 : WatcherState :=
      { st with currently_processing := set_add filename st.currently_processing }
    let tr : Except (List Char) (List Char) :=
      if !env.transcriber_ready then
        .error "Transcriber not available (faster-whisper not installed)".data
      else
        match env.transcribe_result with
        | .error e => .error e
        | .ok t => if t = [] then .error "Transcription returned empty result".data
          else .ok t
    let eff1 := if env.transcriber_ready then [WEffect.transcribe] else []
    match tr with
    | .error e =>
      ({ base_result filename with
          error := some ("Transcription failed: ".data ++ e), processed := false },
       { processed_files := set_add filename st1.processed_files,
         currently_processing := st1.currently_processing.erase filename },
       eff1)
    | .ok transcript =>
      let ste := watcher_llm_step env transcript
      let jr := watcher_jira_step env ste.2.1
      let cf := watcher_confluence_step env
      let ms := watcher_store_step env
      ({ filename := filename, transcript := some transcript, summary := ste.1,
         tasks := ste.2.1, jira_tickets := jr.1,
         confluence_page_id := cf.1.1, confluence_url := cf.1.2,
         meeting_id := ms.1, error := none, processed := true },
       { processed_files := set_add filename st1.processed_files,
         currently_processing := st1.currently_processing.erase filename },
       eff1 ++ ste.2.2 ++ jr.2 ++ cf.2 ++ ms.2)

/-! ## Concrete inputs referenced by the verification -/

/-- The upstream response of end-to-end scenario 2:
markdown-fenced, single-quoted, trailing comma. -/
def c2_response : List Char :=
  "```json\n\x7b".data ++ [squote] ++ "tasks".data ++ [squote] ++ ": [\x7b".data ++
  [squote] ++ "title".data ++ [squote] ++ ": ".data ++ [squote] ++
  "Fix bug".data ++ [squote] ++ ",\x7d]\x7d\n```".data

/-- Structural soundness of a date without the calendar ceiling (used to
reason about day arithmetic). -/
def PyDate.proper (d : PyDate) : Prop :=
  1 ≤ d.year ∧ 1 ≤ d.month ∧ d.month ≤ 12 ∧ 1 ≤ d.day ∧
    d.day ≤ days_in_month d.year d.month

/-! ## Helper lemmas -/

theorem mem_set_add_self (x : List Char) (l : List (List Char)) :
    x ∈ set_add x l := by
  unfold set_add
  split
  · assumption
  · exact List.mem_cons_self x l

theorem erase_set_add (x : List Char) (l : List (List Char)) (h : x ∉ l) :
    (set_add x l).erase x = l := by
  unfold set_add
  rw [if_neg h]
  exact List.erase_cons_head x l

/-! ## Claim theorems -/

/-- Claim C1 (code inspection at the failing input): when every earlier stage
succeeds, one task was extracted and `get_jira_client()` raises inside the
create-tickets stage, the pipeline does NOT set the terminal error there: the
publish-page stage still runs (the trace contains all five nodes) and the run
finishes with no error — contradicting the claim that a create-tickets error
sets the terminal error and skips straight to persist. -/
theorem claim_C1_jira_error_not_terminal :
    (run_pipeline
      { llm_configured := true
        title_result := .ok "Sprint Sync".data
        summary_result := .ok "Team discussed the sprint.".data
        project_result := .ok none
        extract_result := .ok [[("title".data, Json.str "Fix login bug".data)]]
        jira_client := .error "AttributeError: rstrip on None".data
        confluence_client :=
          .ok ⟨true, .ok (some ("123".data, "http://wiki/x".data, "created".data))⟩
        store_result := .ok (1, 2, []) }
      (initial_state "transcript".data "2026-10-12".data none)).2 =
      ["summarize_meeting".data, "extract_tasks".data, "create_jira_issues".data,
       "update_confluence_page".data, "store_results".data] ∧
    (run_pipeline
      { llm_configured := true
        title_result := .ok "Sprint Sync".data
        summary_result := .ok "Team discussed the sprint.".data
        project_result := .ok none
        extract_result := .ok [[("title".data, Json.str "Fix login bug".data)]]
        jira_client := .error "AttributeError: rstrip on None".data
        confluence_client :=
          .ok ⟨true, .ok (some ("123".data, "http://wiki/x".data, "created".data))⟩
        store_result := .ok (1, 2, []) }
      (initial_state "transcript".data "2026-10-12".data none)).1.error = none := by
  exact ⟨rfl, rfl⟩

/-- Claim C2 counterexample: on the exact scenario string, the structured
parse fails — all four strategies, including the quote repair and the
trailing-comma repair (which the code applies independently, never composed),
return nothing. -/
theorem claim_C2_counterexample : parse_json_safely c2_response = none := rfl

/-- Claim C2 amended: the structured parse of the scenario string fails after
all repair heuristics (the quote repair and the comma repair each miss the
other defect); composing the two repairs on the cleaned text would parse to
exactly one task titled "Fix bug"; and with the parse failing, the cascade
proceeds past the structured strategy (with empty summary and transcript it
returns zero tasks with method `none`). -/
theorem claim_C2_amended :
    parse_json_safely c2_response = none ∧
    json_loads (sub_comma_close ']' (sub_comma_close '\x7d'
      (replace_char squote '"' (clean_json_response c2_response)))) =
      some (Json.obj [("tasks".data,
        Json.arr [Json.obj [("title".data, Json.str "Fix bug".data)]])]) ∧
    (∀ dp today, safe_extract_tasks dp today [] none (some c2_response) =
      .ok ⟨[], "none".data, 0⟩) :=
  ⟨rfl, rfl, fun _ _ => rfl⟩

set_option maxRecDepth 100000 in
/-- Claim C3 counterexample: a raw assignee `"q"` matches no roster member,
and `validate_and_normalize_task` keeps it verbatim (`assignee = matched or
raw_assignee`), so the normalized assignee is neither null nor a roster
entry. -/
theorem claim_C3_counterexample :
    validate_and_normalize_task (fun _ => none) ⟨2026, 10, 12⟩
      [("description".data, Json.str "Review the patch".data),
       ("assignee".data, Json.str "q".data)] =
      .ok ⟨"Review the patch".data, some "q".data, none⟩ ∧
    "q".data ∉ default_team_members := by
  exact ⟨by rfl, by decide⟩

theorem alias_to_member_mem (k m : List Char) (h : alias_to_member k = some m) :
    m ∈ default_team_members := by
  unfold alias_to_member at h
  rcases Option.map_eq_some'.mp h with ⟨e, hfind, rfl⟩
  have hmem := List.mem_of_find?_eq_some hfind
  rw [List.mem_reverse] at hmem
  rcases List.mem_flatMap.mp hmem with ⟨p, hp, he⟩
  rcases List.mem_map.mp he with ⟨al, _, hale⟩
  rw [← hale]
  have h4 : p.1 ∈ name_aliases.map Prod.fst := List.mem_map_of_mem _ hp
  have he2 : name_aliases.map Prod.fst = default_team_members := rfl
  rw [he2] at h4
  exact h4

theorem match_loop_mem (n ni : List Char) (θ : ℚ) :
    ∀ (ms : List (List Char)) (best : Option (List Char)) (bs : ℚ)
      (m : List Char) (s : ℚ),
      match_loop n ni θ ms best bs = some (m, s) → m ∈ ms ∨ best = some m := by
  intro ms
  induction ms with
  | nil =>
    intro best bs m s h
    right
    unfold match_loop at h
    cases best with
    | none => exact Option.noConfusion h
    | some mm =>
      dsimp only at h
      split at h
      · injection h with h'
        injection h' with ha hb
        rw [ha]
      · exact Option.noConfusion h
  | cons mem rest ih =>
    intro best bs m s h
    unfold match_loop at h
    dsimp only at h
    split at h
    · injection h with h'
      injection h' with ha hb
      exact Or.inl (ha ▸ List.mem_cons_self mem rest)
    · split at h
      · injection h with h'
        injection h' with ha hb
        exact Or.inl (ha ▸ List.mem_cons_self mem rest)
      · split at h
        · rcases ih _ _ _ _ h with h1 | h2
          · exact Or.inl (List.mem_cons_of_mem mem h1)
          · simp only [Option.some.injEq] at h2
            exact Or.inl (h2 ▸ List.mem_cons_self mem rest)
        · rcases ih _ _ _ _ h with h1 | h2
          · exact Or.inl (List.mem_cons_of_mem mem h1)
          · exact Or.inr h2

theorem get_member_name_mem (a m : List Char) (h : get_member_name a = some m) :
    m ∈ default_team_members := by
  unfold get_member_name at h
  rcases Option.map_eq_some'.mp h with ⟨⟨mm, sc⟩, hmm, rfl⟩
  unfold match_member_name at hmm
  split at hmm
  · exact absurd hmm (by simp)
  · dsimp only at hmm
    rcases halias : alias_to_member (normalize_name a) with _ | x
    · rw [halias] at hmm
      rcases match_loop_mem _ _ _ _ _ _ _ _ hmm with h1 | h2
      · exact h1
      · exact absurd h2 (by simp)
    · rw [halias] at hmm
      simp only [Option.some.injEq, Prod.mk.injEq] at hmm
      exact hmm.1 ▸ alias_to_member_mem _ _ halias

/-- Claim C3 amended: a normalized task's assignee is null, or one of the
fixed roster entries, or — when the raw extracted assignee matches no roster
member — exactly the raw assignee string carried over verbatim. -/
theorem claim_C3_amended (dp : List Char → Option PyDate) (today : PyDate)
    (task : List (List Char × Json)) (res : NormalizedTask)
    (h : validate_and_normalize_task dp today task = .ok res) :
    res.assignee = none ∨
    (∃ m, m ∈ default_team_members ∧ res.assignee = some m) ∨
    (∃ a, dict_get task "assignee".data = some (Json.str a) ∧
      res.assignee = some a) := by
  unfold validate_and_normalize_task at h
  dsimp only at h
  split at h
  · exact absurd h (by simp)
  · rename_i asg hra
    split at h
    · exact absurd h (by simp)
    · rename_i due hdue
      split at h
      · rename_i s hdesc
        simp only [Except.ok.injEq] at h
        have hasg : res.assignee = asg := by rw [← h]
        rw [hasg]
        unfold resolve_assignee at hra
        split at hra
        · split at hra
          · rename_i a ha
            split at hra
            · split at hra
              · rename_i mm hmm
                simp only [Except.ok.injEq] at hra
                exact Or.inr (Or.inl ⟨mm, get_member_name_mem _ _ hmm, by rw [← hra]⟩)
              · simp only [Except.ok.injEq] at hra
                refine Or.inr (Or.inr ⟨a, ?_, by rw [← hra]⟩)
                rcases hd : dict_get task "assignee".data with _ | v
                · rw [hd] at ha
                  simp only [Option.getD_none] at ha
                  exact Json.noConfusion ha
                · rw [hd] at ha
                  simp only [Option.getD_some] at ha
                  exact congrArg some ha
            · simp only [Except.ok.injEq] at hra
              exact Or.inl (by rw [← hra])
          · exact absurd hra (by simp)
        · simp only [Except.ok.injEq] at hra
          exact Or.inl (by rw [← hra])
      · exact absurd h (by simp)

/-- Claim C3 amended witness. -/
theorem claim_C3_amended_witness :
    ∃ res, validate_and_normalize_task (fun _ => none) ⟨2026, 3, 1⟩
        [("description".data, Json.str "Ship the build".data),
         ("assignee".data, Json.str "Kyla".data)] = .ok res ∧
      (res.assignee = none ∨
       (∃ m, m ∈ default_team_members ∧ res.assignee = some m) ∨
       (∃ a, dict_get [("description".data, Json.str "Ship the build".data),
          ("assignee".data, Json.str "Kyla".data)] "assignee".data =
            some (Json.str a) ∧ res.assignee = some a)) := by
  refine ⟨⟨"Ship the build".data, some "Kailas S S".data, none⟩, by rfl, ?_⟩
  exact claim_C3_amended (fun _ => none) ⟨2026, 3, 1⟩ _ _ (by rfl)

/-- Claim C4: a publish-page failure never sets the terminal error (the
Confluence node preserves the error field for every collaborator outcome,
raising included), and the persist stage executes on every run — every trace
of the compiled graph ends in `store_results`. -/
theorem claim_C4_publish_absorbed_persist_always :
    ∀ (env : PipelineEnv) (st init : MeetingState),
      (update_confluence_page env st).error = st.error ∧
      (run_pipeline env init).2.getLast? = some "store_results".data := by
  intro env st init
  constructor
  · unfold update_confluence_page
    rcases env.confluence_client with e | cc
    · rfl
    · cases hcp : cc.page_result with
      | error e => cases hc : cc.is_configured <;> simp [hc, hcp]
      | ok r =>
        cases r <;> cases hc : cc.is_configured <;> simp [hc, hcp]
  · simp only [run_pipeline]
    repeat' split
    all_goals rfl

/-- Claim C5 counterexample: input `"abcdefgh"` contains roster member
`"abc"` as a substring (score 0.85) and matches no alias and no exact
normalized name, yet the resolver returns the later member `"abcdefgx"`
with the higher fuzzy score 7/8 = 0.875 — the substring hit is not accepted
immediately. -/
theorem claim_C5_counterexample :
    is_sub (normalize_name "abc".data) (normalize_name "abcdefgh".data) = true ∧
    alias_to_member (normalize_name "abcdefgh".data) = none ∧
    match_member_name "abcdefgh".data ["abc".data, "abcdefgx".data] (mkRat 3 5) =
      some ("abcdefgx".data, mkRat 7 8) := by
  refine ⟨rfl, rfl, ?_⟩
  rfl

theorem blt_iff (a b : ℚ) : Rat.blt a b = true ↔ a < b := Eq.to_iff rfl

theorem blt_false_iff (a b : ℚ) : Rat.blt a b = false ↔ b ≤ a := by
  constructor
  · intro h
    by_contra hlt
    rw [(blt_iff a b).mpr (not_le.mp hlt)] at h
    cases h
  · intro h
    cases hb : Rat.blt a b with
    | false => rfl
    | true => exact absurd ((blt_iff a b).mp hb) (not_lt.mpr h)

theorem le_py_max_left (a b : ℚ) : a ≤ py_max a b := by
  unfold py_max
  cases hb : Rat.blt a b with
  | true => simp only [if_pos rfl]; exact le_of_lt ((blt_iff a b).mp hb)
  | false => simp

theorem le_foldl_py_max (l : List ℚ) : ∀ a : ℚ, a ≤ l.foldl py_max a := by
  induction l with
  | nil => intro a; exact le_refl a
  | cons x rest ih =>
    intro a
    exact le_trans (le_py_max_left a x) (ih (py_max a x))

/-- Holding phase of the scan: once the incumbent's score dominates every
remaining candidate (ties included) and no exact hit remains, the incumbent
survives to the end and is returned when it passes the threshold. -/
theorem match_loop_hold (n ni : List Char) (θ : ℚ) (m : List Char) (S : ℚ)
    (hm : m ≠ []) (hθ : θ ≤ S) :
    ∀ ms : List (List Char),
      (∀ m' ∈ ms, ni ≠ normalize_name m' ∧
        ∀ al ∈ aliases_of m', ni ≠ normalize_name al) →
      (∀ m' ∈ ms, member_combined_score n m' ≤ S) →
      match_loop n ni θ ms (some m) S = some (m, S) := by
  intro ms
  induction ms with
  | nil =>
    intro _ _
    unfold match_loop
    dsimp only
    have hcond : (decide (m ≠ []) && !Rat.blt S θ) = true := by
      simp only [Bool.and_eq_true, decide_eq_true_eq, Bool.not_eq_true']
      exact ⟨hm, (blt_false_iff S θ).mpr hθ⟩
    rw [if_pos hcond]
  | cons mhead rest ih =>
    intro hnoex hle
    unfold match_loop
    dsimp only
    rw [if_neg, if_neg, if_neg]
    · exact ih (fun m' hmr => hnoex m' (List.mem_cons_of_mem mhead hmr))
        (fun m' hmr => hle m' (List.mem_cons_of_mem mhead hmr))
    · intro hblt
      have hlt := (blt_iff _ _).mp hblt
      exact absurd (hle mhead (List.mem_cons_self mhead rest)) (not_le.mpr hlt)
    · intro hany
      rcases List.any_eq_true.mp hany with ⟨al, hal, hpeq⟩
      exact (hnoex mhead (List.mem_cons_self mhead rest)).2 al hal
        (by simpa using hpeq)
    · exact (hnoex mhead (List.mem_cons_self mhead rest)).1

/-- Search phase of the scan: while the incumbent is strictly below the
unique maximal candidate `m`, the scan ends at `m` with its combined
score. -/
theorem match_loop_search (n ni : List Char) (θ : ℚ) (m : List Char)
    (hm : m ≠ []) (hθ : θ ≤ member_combined_score n m) :
    ∀ (ms : List (List Char)) (best : Option (List Char)) (bs : ℚ),
      m ∈ ms →
      (∀ m' ∈ ms, ni ≠ normalize_name m' ∧
        ∀ al ∈ aliases_of m', ni ≠ normalize_name al) →
      (∀ m' ∈ ms, m' ≠ m →
        member_combined_score n m' < member_combined_score n m) →
      bs < member_combined_score n m →
      match_loop n ni θ ms best bs = some (m, member_combined_score n m) := by
  intro ms
  induction ms with
  | nil => intro best bs hmem; exact absurd hmem (List.not_mem_nil m)
  | cons mhead rest ih =>
    intro best bs hmem hnoex hstrict hbs
    unfold match_loop
    dsimp only
    rw [if_neg ((hnoex mhead (List.mem_cons_self mhead rest)).1), if_neg]
    · by_cases hhead : mhead = m
      · subst hhead
        rw [if_pos ((blt_iff _ _).mpr hbs)]
        exact match_loop_hold n ni θ mhead (member_combined_score n mhead) hm hθ
          rest (fun m' hmr => hnoex m' (List.mem_cons_of_mem mhead hmr))
          (fun m' hmr => by
            by_cases hm' : m' = mhead
            · rw [hm']
            · exact le_of_lt (hstrict m' (List.mem_cons_of_mem mhead hmr) hm'))
      · have hmem' : m ∈ rest := by
          rcases List.mem_cons.mp hmem with h1 | h2
          · exact absurd h1.symm hhead
          · exact h2
        have hlt : member_combined_score n mhead < member_combined_score n m :=
          hstrict mhead (List.mem_cons_self mhead rest) hhead
        cases hblt : Rat.blt bs (member_combined_score n mhead) with
        | true =>
          rw [if_pos rfl]
          exact ih (some mhead) (member_combined_score n mhead) hmem'
            (fun m' hmr => hnoex m' (List.mem_cons_of_mem mhead hmr))
            (fun m' hmr hne => hstrict m' (List.mem_cons_of_mem mhead hmr) hne)
            hlt
        | false =>
          rw [if_neg (by simp [hblt])]
          exact ih best bs hmem'
            (fun m' hmr => hnoex m' (List.mem_cons_of_mem mhead hmr))
            (fun m' hmr hne => hstrict m' (List.mem_cons_of_mem mhead hmr) hne)
            hbs
    · intro hany
      rcases List.any_eq_true.mp hany with ⟨al, hal, hpeq⟩
      exact (hnoex mhead (List.mem_cons_self mhead rest)).2 al hal
        (by simpa using hpeq)

/-- Claim C5 amended: substring containment between the normalized input and
a roster member's normalized name contributes a combined score of at least
0.85 for that member, but the scan continues over the remaining candidates;
the member is returned only when its combined score strictly exceeds every
other candidate's (and meets the threshold) — and the reported score is its
combined score, not necessarily 0.85. -/
theorem claim_C5_amended (input m : List Char) (ms : List (List Char)) (θ : ℚ)
    (hne : input ≠ []) (hsent : py_lower input ∉ sentinel_assignees)
    (halias : alias_to_member (normalize_name input) = none)
    (hnoexact : ∀ m' ∈ ms, normalize_name input ≠ normalize_name m' ∧
      ∀ al ∈ aliases_of m', normalize_name input ≠ normalize_name al)
    (hmem : m ∈ ms)
    (hn1 : normalize_name input ≠ []) (hn2 : normalize_name m ≠ [])
    (hcontain : is_sub (normalize_name input) (normalize_name m) = true ∨
      is_sub (normalize_name m) (normalize_name input) = true)
    (hstrict : ∀ m' ∈ ms, m' ≠ m →
      member_combined_score input m' < member_combined_score input m)
    (hθ : θ ≤ member_combined_score input m) (hm : m ≠ []) :
    match_member_name input ms θ =
      some (m, member_combined_score input m) ∧
    mkRat 17 20 ≤ member_combined_score input m := by
  have hcalc : calculate_similarity input m = mkRat 17 20 := by
    unfold calculate_similarity
    rw [if_neg, if_neg, if_pos]
    · rcases hcontain with hc | hc <;> simp [hc]
    · exact (hnoexact m hmem).1
    · simp [hn1, hn2]
  have hbase : mkRat 17 20 ≤ member_combined_score input m := by
    rw [← hcalc]
    exact le_foldl_py_max _ _
  refine ⟨?_, hbase⟩
  unfold match_member_name
  have hcond0 : ¬ ((decide (input = []) || decide (py_lower input ∈ sentinel_assignees)) = true) := by
    simp only [Bool.or_eq_true, decide_eq_true_eq, not_or]
    exact ⟨hne, hsent⟩
  rw [if_neg hcond0]
  dsimp only
  rw [halias]
  exact match_loop_search input (normalize_name input) θ m hm hθ ms none
    (mkRat 0 1) hmem hnoexact hstrict
    (lt_of_lt_of_le (by decide : mkRat 0 1 < mkRat 17 20) hbase)

/-- Claim C5 amended witness: the counterexample pair instantiates the
amended statement — `"abcdefgx"` is the unique strict maximum and is
returned with its combined score 7/8. -/
theorem claim_C5_amended_witness :
    match_member_name "abcdefgh".data ["abc".data, "zqzq".data] (mkRat 3 5) =
      some ("abc".data, member_combined_score "abcdefgh".data "abc".data) ∧
    mkRat 17 20 ≤ member_combined_score "abcdefgh".data "abc".data := by
  exact claim_C5_amended "abcdefgh".data "abc".data
    ["abc".data, "zqzq".data] (mkRat 3 5)
    (by decide) (by decide) (by rfl) (by decide) (by decide) (by decide)
    (by decide) (Or.inr (by decide)) (by decide) (by decide) (by decide)

theorem char_digit_of_digit (k : Nat) (h : k < 10) :
    char_digit (Char.ofNat (48 + k)) = some k := by
  interval_cases k <;> rfl

theorem not_space_digit (k : Nat) (h : k < 10) :
    is_py_space (Char.ofNat (48 + k)) = false := by
  interval_cases k <;> rfl

theorem pad_digits_succ (w n : Nat) :
    pad_digits (w + 1) n = pad_digits w (n / 10) ++ [Char.ofNat (48 + n % 10)] :=
  rfl

theorem pad_digits_zero (n : Nat) : pad_digits 0 n = [] := rfl

theorem pad4_eq (n : Nat) :
    pad_digits 4 n =
      [Char.ofNat (48 + n / 1000 % 10), Char.ofNat (48 + n / 100 % 10),
       Char.ofNat (48 + n / 10 % 10), Char.ofNat (48 + n % 10)] := by
  rw [show (4 : Nat) = 3 + 1 from rfl, pad_digits_succ]
  rw [show (3 : Nat) = 2 + 1 from rfl, pad_digits_succ]
  rw [show (2 : Nat) = 1 + 1 from rfl, pad_digits_succ]
  rw [show (1 : Nat) = 0 + 1 from rfl, pad_digits_succ]
  rw [pad_digits_zero]
  rw [show n / 10 / 10 / 10 = n / 1000 by omega]
  rw [show n / 10 / 10 = n / 100 by omega]
  rfl

theorem pad2_eq (n : Nat) :
    pad_digits 2 n =
      [Char.ofNat (48 + n / 10 % 10), Char.ofNat (48 + n % 10)] := by
  rw [show (2 : Nat) = 1 + 1 from rfl, pad_digits_succ]
  rw [show (1 : Nat) = 0 + 1 from rfl, pad_digits_succ]
  rw [pad_digits_zero]
  rfl

theorem iso_format_eq (d : PyDate) :
    iso_format d =
      [Char.ofNat (48 + d.year / 1000 % 10), Char.ofNat (48 + d.year / 100 % 10),
       Char.ofNat (48 + d.year / 10 % 10), Char.ofNat (48 + d.year % 10), '-',
       Char.ofNat (48 + d.month / 10 % 10), Char.ofNat (48 + d.month % 10), '-',
       Char.ofNat (48 + d.day / 10 % 10), Char.ofNat (48 + d.day % 10)] := by
  unfold iso_format
  rw [pad4_eq, pad2_eq, pad2_eq]
  rfl

theorem dropWhile_no_space (l : List Char)
    (h : ∀ c ∈ l, is_py_space c = false) : l.dropWhile is_py_space = l := by
  induction l with
  | nil => rfl
  | cons c rest ih =>
    rw [List.dropWhile_cons]
    rw [h c (List.mem_cons_self c rest)]
    simp

theorem strip_no_space (l : List Char)
    (h : ∀ c ∈ l, is_py_space c = false) : py_strip l = l := by
  unfold py_strip
  rw [dropWhile_no_space l h]
  rw [dropWhile_no_space l.reverse (fun c hc => h c (List.mem_reverse.mp hc))]
  exact List.reverse_reverse l

theorem iso_format_no_space (d : PyDate) :
    ∀ c ∈ iso_format d, is_py_space c = false := by
  intro c hc
  rw [iso_format_eq] at hc
  simp only [List.mem_cons, List.not_mem_nil, or_false] at hc
  rcases hc with h | h | h | h | h | h | h | h | h | h <;> rw [h]
  all_goals first
    | exact not_space_digit _ (Nat.mod_lt _ (by norm_num))
    | rfl

theorem iso_parse_explicit (a b c d0 e f g h0 : Char) :
    iso_parse [a, b, c, d0, '-', e, f, '-', g, h0] =
      (do
        let a' ← char_digit a
        let b' ← char_digit b
        let c' ← char_digit c
        let d' ← char_digit d0
        let e' ← char_digit e
        let f' ← char_digit f
        let g' ← char_digit g
        let h' ← char_digit h0
        let dt : PyDate :=
          ⟨((a' * 10 + b') * 10 + c') * 10 + d', e' * 10 + f', g' * 10 + h'⟩
        if dt.valid then some dt else none) := rfl

set_option maxRecDepth 10000 in
/-- Claim C9: the temporal-resolver round trip — formatting any valid
calendar date as `YYYY-MM-DD` and parsing it back returns exactly that date,
for every clock value and every behaviour of the optional natural-language
library (the ISO branch answers first). -/
theorem claim_C9_roundtrip (dp : List Char → Option PyDate) (today : PyDate)
    (d : PyDate) (h : d.valid = true) :
    parse_due_date dp today (iso_format d) = .ok (some d) := by
  have hb : (1 ≤ d.year ∧ d.year ≤ 9999) ∧ (1 ≤ d.month ∧ d.month ≤ 12) ∧
      1 ≤ d.day ∧ d.day ≤ days_in_month d.year d.month := by
    unfold PyDate.valid at h
    simp only [Bool.and_eq_true, decide_eq_true_eq] at h
    exact ⟨⟨h.1.1.1, h.1.1.2⟩, ⟨h.1.2.1, h.1.2.2⟩, h.2.1, h.2.2⟩
  have hlen : (py_lower (iso_format d)).length = 10 := by
    rw [iso_format_eq]; rfl
  have hne : iso_format d ≠ [] := by
    rw [iso_format_eq]; exact List.cons_ne_nil _ _
  have hsent : py_lower (iso_format d) ∉ sentinel_dates := by
    intro hmem
    unfold sentinel_dates at hmem
    simp only [List.mem_cons, List.not_mem_nil, or_false] at hmem
    rcases hmem with h1 | h1 | h1 | h1 | h1 <;>
      (have hl2 := congrArg List.length h1; rw [hlen] at hl2; simp at hl2)
  have hstrip : py_strip (iso_format d) = iso_format d :=
    strip_no_space _ (iso_format_no_space d)
  have hiso : iso_parse (iso_format d) = some d := by
    rw [iso_format_eq, iso_parse_explicit]
    have hy3 := char_digit_of_digit (d.year / 1000 % 10) (Nat.mod_lt _ (by norm_num))
    have hy2 := char_digit_of_digit (d.year / 100 % 10) (Nat.mod_lt _ (by norm_num))
    have hy1 := char_digit_of_digit (d.year / 10 % 10) (Nat.mod_lt _ (by norm_num))
    have hy0 := char_digit_of_digit (d.year % 10) (Nat.mod_lt _ (by norm_num))
    have hm1 := char_digit_of_digit (d.month / 10 % 10) (Nat.mod_lt _ (by norm_num))
    have hm0 := char_digit_of_digit (d.month % 10) (Nat.mod_lt _ (by norm_num))
    have hd1 := char_digit_of_digit (d.day / 10 % 10) (Nat.mod_lt _ (by norm_num))
    have hd0 := char_digit_of_digit (d.day % 10) (Nat.mod_lt _ (by norm_num))
    rw [hy3, hy2, hy1, hy0, hm1, hm0, hd1, hd0]
    simp only [Option.bind_eq_bind, Option.some_bind]
    have hyy : ((d.year / 1000 % 10 * 10 + d.year / 100 % 10) * 10 +
        d.year / 10 % 10) * 10 + d.year % 10 = d.year := by
      have := hb.1.2
      omega
    have hmm : d.month / 10 % 10 * 10 + d.month % 10 = d.month := by
      have := hb.2.1.2
      omega
    have hdd : d.day / 10 % 10 * 10 + d.day % 10 = d.day := by
      have hdub : d.day ≤ 31 := by
        have h31 : days_in_month d.year d.month ≤ 31 := by
          unfold days_in_month
          split
          · split <;> norm_num
          · split <;> norm_num
        exact le_trans hb.2.2.2 h31
      omega
    have hde : (⟨((d.year / 1000 % 10 * 10 + d.year / 100 % 10) * 10 +
        d.year / 10 % 10) * 10 + d.year % 10,
        d.month / 10 % 10 * 10 + d.month % 10,
        d.day / 10 % 10 * 10 + d.day % 10⟩ : PyDate) = d := by
      rw [hyy, hmm, hdd]
    rw [hde, h]
    simp
  have hcond : (decide (iso_format d = []) ||
      decide (py_lower (iso_format d) ∈ sentinel_dates)) = false := by
    simp [hne, hsent]
  unfold parse_due_date
  dsimp only
  rw [hstrip, hcond, hiso]
  simp

/-- Claim C9 witness. -/
theorem claim_C9_witness :
    (PyDate.mk 2026 3 15).valid = true ∧
    parse_due_date (fun _ => none) ⟨2026, 10, 12⟩ (iso_format ⟨2026, 3, 15⟩) =
      .ok (some ⟨2026, 3, 15⟩) := by
  refine ⟨by decide, ?_⟩
  exact claim_C9_roundtrip (fun _ => none) ⟨2026, 10, 12⟩ ⟨2026, 3, 15⟩ (by decide)

theorem days_in_month_bounds (y m : Nat) :
    28 ≤ days_in_month y m ∧ days_in_month y m ≤ 31 := by
  unfold days_in_month
  repeat' split
  all_goals norm_num

theorem dbm_one (y : Nat) : days_before_month y 1 = 0 := rfl

theorem dbm_succ (y m : Nat) (h : 1 ≤ m) :
    days_before_month y (m + 1) = days_before_month y m + days_in_month y m := by
  unfold days_before_month
  have h1 : m + 1 - 1 = (m - 1) + 1 := by omega
  rw [h1, List.range'_concat, List.map_append, List.sum_append]
  have h2 : 1 + 1 * (m - 1) = m := by omega
  rw [h2]
  simp only [List.map_cons, List.map_nil, List.sum_cons, List.sum_nil]
  omega

set_option maxHeartbeats 1000000 in
theorem dby_succ (y : Nat) (hy : 1 ≤ y) :
    days_before_year (y + 1) =
      days_before_year y + (if is_leap_year y then 366 else 365) := by
  cases hl : is_leap_year y with
  | true =>
    rw [if_pos rfl]
    unfold is_leap_year at hl
    simp only [Bool.and_eq_true, Bool.or_eq_true, decide_eq_true_eq,
      bne_iff_ne, ne_eq] at hl
    unfold days_before_year
    omega
  | false =>
    rw [if_neg (by decide)]
    unfold is_leap_year at hl
    simp only [Bool.and_eq_false_iff, Bool.or_eq_false_iff, decide_eq_false_iff_not,
      bne_eq_false_iff_eq, ne_eq, not_not] at hl
    unfold days_before_year
    rcases hl with hl | ⟨hl1, hl2⟩
    · omega
    · omega

theorem dbm12 (y : Nat) :
    days_before_month y 12 = if is_leap_year y then 335 else 334 := by
  have hr : List.range' 1 11 = [1, 2, 3, 4, 5, 6, 7, 8, 9, 10, 11] := rfl
  unfold days_before_month
  rw [show (12 : Nat) - 1 = 11 from rfl, hr]
  cases hl : is_leap_year y <;> norm_num [days_in_month, hl]

theorem toordinal_next_day (d : PyDate) (hp : d.proper) :
    (next_day d).toordinal = d.toordinal + 1 ∧ (next_day d).proper := by
  obtain ⟨hy, hm1, hm12, hd1, hdm⟩ := hp
  unfold next_day
  by_cases hday : d.day < days_in_month d.year d.month
  · rw [if_pos hday]
    refine ⟨?_, ?_⟩
    · show days_before_year d.year + days_before_month d.year d.month + (d.day + 1) =
        days_before_year d.year + days_before_month d.year d.month + d.day + 1
      omega
    · show 1 ≤ d.year ∧ 1 ≤ d.month ∧ d.month ≤ 12 ∧ 1 ≤ d.day + 1 ∧
        d.day + 1 ≤ days_in_month d.year d.month
      exact ⟨hy, hm1, hm12, by omega, by omega⟩
  · rw [if_neg hday]
    have hdeq : d.day = days_in_month d.year d.month := by omega
    by_cases hmon : d.month < 12
    · rw [if_pos hmon]
      refine ⟨?_, ?_⟩
      · show days_before_year d.year + days_before_month d.year (d.month + 1) + 1 =
          days_before_year d.year + days_before_month d.year d.month + d.day + 1
        rw [dbm_succ d.year d.month hm1]
        omega
      · show 1 ≤ d.year ∧ 1 ≤ d.month + 1 ∧ d.month + 1 ≤ 12 ∧ 1 ≤ 1 ∧
          1 ≤ days_in_month d.year (d.month + 1)
        exact ⟨hy, by omega, by omega, le_refl 1,
          Nat.le_trans (by norm_num) (days_in_month_bounds _ _).1⟩
    · rw [if_neg hmon]
      have hm12' : d.month = 12 := by omega
      have hd31 : d.day = 31 := by
        rw [hdeq, hm12']
        rfl
      refine ⟨?_, ?_⟩
      · show days_before_year (d.year + 1) + days_before_month (d.year + 1) 1 + 1 =
          days_before_year d.year + days_before_month d.year d.month + d.day + 1
        rw [dbm_one]
        have hsucc := dby_succ d.year hy
        have h12 := dbm12 d.year
        rw [hm12', hd31, h12]
        cases hl : is_leap_year d.year <;>
          (rw [hl] at hsucc; simp at hsucc ⊢; omega)
      · show 1 ≤ d.year + 1 ∧ 1 ≤ 1 ∧ 1 ≤ 12 ∧ 1 ≤ 1 ∧
          1 ≤ days_in_month (d.year + 1) 1
        exact ⟨by omega, le_refl 1, by norm_num, le_refl 1, by norm_num [days_in_month]⟩

theorem toordinal_add_days :
    ∀ (n : Nat) (d : PyDate), d.proper →
      (add_days d n).toordinal = d.toordinal + n ∧ (add_days d n).proper := by
  intro n
  induction n with
  | zero => intro d hp; exact ⟨rfl, hp⟩
  | succ k ih =>
    intro d hp
    have hnext := toordinal_next_day d hp
    have hrec := ih (next_day d) hnext.2
    show (add_days (next_day d) k).toordinal = _ ∧ _
    constructor
    · rw [hrec.1, hnext.1]
      omega
    · exact hrec.2

theorem dby_step (n : Nat) :
    days_before_year n ≤ days_before_year (n + 1) := by
  unfold days_before_year
  omega

theorem dby_mono {y y' : Nat} (h : y ≤ y') :
    days_before_year y ≤ days_before_year y' := by
  induction y' with
  | zero =>
    have h0 : y = 0 := by omega
    rw [h0]
  | succ k ih =>
    by_cases hk : y ≤ k
    · exact le_trans (ih hk) (dby_step k)
    · have he : y = k + 1 := by omega
      rw [he]

theorem ord_upper (d : PyDate) (hp : d.proper) :
    d.toordinal ≤ days_before_year d.year + 372 := by
  obtain ⟨hy, hm1, hm12, hd1, hdm⟩ := hp
  have hdbm : days_before_month d.year d.month ≤ 341 := by
    unfold days_before_month
    have hb : ∀ x ∈ List.map (days_in_month d.year) (List.range' 1 (d.month - 1)),
        x ≤ 31 := by
      intro x hx
      obtain ⟨a, _, rfl⟩ := List.mem_map.mp hx
      exact (days_in_month_bounds _ _).2
    have hs := List.sum_le_card_nsmul
      (List.map (days_in_month d.year) (List.range' 1 (d.month - 1))) 31 hb
    simp only [smul_eq_mul, List.length_map, List.length_range'] at hs
    omega
  have hday : d.day ≤ 31 := le_trans hdm (days_in_month_bounds d.year d.month).2
  unfold PyDate.toordinal
  omega

theorem ord_lower (d : PyDate) (hp : d.proper) :
    days_before_year d.year < d.toordinal := by
  obtain ⟨hy, hm1, hm12, hd1, hdm⟩ := hp
  unfold PyDate.toordinal
  omega

theorem year_le_of_ord (d : PyDate) (hp : d.proper)
    (h : d.toordinal ≤ 3652059) : d.year ≤ 9999 := by
  by_contra hgt
  have h10000 : days_before_year 10000 ≤ days_before_year d.year :=
    dby_mono (by omega)
  have hv : days_before_year 10000 = 3652059 := by
    norm_num [days_before_year]
  have := ord_lower d hp
  omega

theorem valid_proper (d : PyDate) (h : d.valid = true) : d.proper := by
  unfold PyDate.valid at h
  simp only [Bool.and_eq_true, decide_eq_true_eq] at h
  exact ⟨h.1.1.1, h.1.2.1, h.1.2.2, h.2.1, h.2.2⟩

theorem weekday_lt_7 (d : PyDate) : d.weekday < 7 :=
  Nat.mod_lt _ (by norm_num)

theorem get_next_weekday_ok (today : PyDate) (w : Nat) (hp : today.proper)
    (hy : today.year ≤ 9998) (hw : w < 7) :
    ∃ r, get_next_weekday today w = some r ∧
      today.toordinal < r.toordinal ∧
      r.toordinal ≤ today.toordinal + 7 ∧
      r.weekday = w := by
  have hwd7 : today.weekday < 7 := weekday_lt_7 today
  set ahead := if w ≤ today.weekday then w + 7 - today.weekday
    else w - today.weekday with hahead
  have hbound : 1 ≤ ahead ∧ ahead ≤ 7 := by
    rw [hahead]; split <;> omega
  have hadd := toordinal_add_days ahead today hp
  have hub : (add_days today ahead).toordinal ≤ 3652059 := by
    have hordub := ord_upper today hp
    have hordub' : today.toordinal ≤ days_before_year today.year + 372 := hordub
    have hmono : days_before_year today.year ≤ days_before_year 9998 :=
      dby_mono hy
    have h9998 : days_before_year 9998 = 3651329 := by
      norm_num [days_before_year]
    omega
  have hyle : (add_days today ahead).year ≤ 9999 :=
    year_le_of_ord _ hadd.2 hub
  refine ⟨add_days today ahead, ?_, ?_, ?_, ?_⟩
  · unfold get_next_weekday
    dsimp only
    rw [← hahead]
    unfold add_days_checked
    rw [if_neg (by omega)]
    dsimp only
    rw [if_pos (by simpa using hyle)]
  · rw [hadd.1]; omega
  · rw [hadd.1]; omega
  · show ((add_days today ahead).toordinal + 6) % 7 = w
    rw [hadd.1, hahead]
    have hwdef : today.weekday = (today.toordinal + 6) % 7 := rfl
    rw [hwdef]
    split <;> omega

theorem weekday_names_lt_7 : ∀ p ∈ weekday_names, p.2 < 7 := by decide

theorem fallback_parse_ok (today : PyDate) (text : List Char)
    (hp : today.proper) (hy : today.year ≤ 9998) :
    ∃ o, fallback_parse_date today text = .ok o := by
  unfold fallback_parse_date
  dsimp only
  cases relative_date_result today (py_strip (py_lower text)) with
  | some d => exact ⟨some d, rfl⟩
  | none =>
    cases hf : weekday_names.find? (fun p => is_sub p.1 (py_strip (py_lower text))) with
    | none => exact ⟨none, rfl⟩
    | some p =>
      have hmem := List.mem_of_find?_eq_some hf
      have hw : p.2 < 7 := weekday_names_lt_7 p hmem
      obtain ⟨r, hr, _, _, _⟩ := get_next_weekday_ok today p.2 hp hy hw
      dsimp only
      rw [hr]
      exact ⟨some r, rfl⟩

theorem parse_due_date_ok (dp : List Char → Option PyDate) (today : PyDate)
    (text : List Char) (hp : today.proper) (hy : today.year ≤ 9998) :
    ∃ o, parse_due_date dp today text = .ok o := by
  unfold parse_due_date
  dsimp only
  split
  · exact ⟨none, rfl⟩
  · cases iso_parse (py_strip text) with
    | some d => exact ⟨some d, rfl⟩
    | none =>
      cases strptime_formats (py_strip text) with
      | some d => exact ⟨some d, rfl⟩
      | none =>
        cases dp (py_strip text) with
        | some d => exact ⟨some d, rfl⟩
        | none => exact fallback_parse_ok today (py_strip text) hp hy

/-- Claim C10: when an input reaches the hand-rolled fallback resolver on a
valid clock date (with at least one year of headroom before the calendar
ceiling), no relative-expression pattern matches, and the lowercased stripped
text contains some weekday name or abbreviation of the fixed lookup table as a
substring, the resolver returns the next future occurrence of the FIRST such
weekday in table order: a date strictly after today, at most seven days ahead,
whose weekday is exactly the looked-up weekday number — never null. -/
theorem claim_C10_weekday_substring (today : PyDate) (text : List Char)
    (p : List Char × Nat) (hv : today.valid = true) (hy : today.year ≤ 9998)
    (hrel : relative_date_result today (py_strip (py_lower text)) = none)
    (hf : weekday_names.find? (fun q => is_sub q.1 (py_strip (py_lower text))) =
      some p) :
    ∃ r, fallback_parse_date today text = .ok (some r) ∧
      today.toordinal < r.toordinal ∧
      r.toordinal ≤ today.toordinal + 7 ∧
      r.weekday = p.2 := by
  have hpr := valid_proper today hv
  have hmem := List.mem_of_find?_eq_some hf
  have hw : p.2 < 7 := weekday_names_lt_7 p hmem
  obtain ⟨r, hr, h1, h2, h3⟩ := get_next_weekday_ok today p.2 hpr hy hw
  refine ⟨r, ?_, h1, h2, h3⟩
  unfold fallback_parse_date
  dsimp only
  rw [hrel]
  dsimp only
  rw [hf]
  dsimp only
  rw [hr]

/-- Claim C10 witness: on 2026-10-12 the text "monitor the deployment"
contains "mon" inside "monitor", so the fallback resolves to the following
Monday. -/
theorem claim_C10_witness :
    ∃ r, fallback_parse_date ⟨2026, 10, 12⟩ "monitor the deployment".data =
        .ok (some r) ∧
      (PyDate.mk 2026 10 12).toordinal < r.toordinal ∧
      r.toordinal ≤ (PyDate.mk 2026 10 12).toordinal + 7 ∧
      r.weekday = ("mon".data, (0 : Nat)).2 :=
  claim_C10_weekday_substring ⟨2026, 10, 12⟩ "monitor the deployment".data
    ("mon".data, 0) (by decide) (by decide) rfl rfl

theorem resolve_assignee_str_ok (s : List Char) :
    ∃ x, resolve_assignee (Json.str s) = .ok x := by
  unfold resolve_assignee
  by_cases h1 : py_truthy (Json.str s) = true
  · rw [if_pos h1]
    dsimp only
    by_cases h2 : (!decide (py_lower s ∈ sentinel_assignees)) = true
    · rw [if_pos h2]
      cases hm : get_member_name s with
      | some m => exact ⟨some m, rfl⟩
      | none => exact ⟨some s, rfl⟩
    · rw [if_neg h2]
      exact ⟨none, rfl⟩
  · rw [if_neg h1]
    exact ⟨none, rfl⟩

theorem resolve_due_date_str_ok (dp : List Char → Option PyDate) (today : PyDate)
    (s : List Char) (hp : today.proper) (hy : today.year ≤ 9998) :
    ∃ x, resolve_due_date dp today (Json.str s) = .ok x := by
  unfold resolve_due_date
  by_cases h1 : py_truthy (Json.str s) = true
  · rw [if_pos h1]
    obtain ⟨o, ho⟩ := parse_due_date_ok dp today (py_str_of (Json.str s)) hp hy
    rw [ho]
    exact ⟨format_date_iso o, rfl⟩
  · rw [if_neg h1]
    exact ⟨none, rfl⟩

theorem validate_fallback_ok (dp : List Char → Option PyDate) (today : PyDate)
    (desc : List Char) (a d2 : Option (List Char))
    (hp : today.proper) (hy : today.year ≤ 9998) :
    ∃ t, validate_and_normalize_task dp today (mk_fallback_task desc a d2) =
      .ok t := by
  unfold validate_and_normalize_task
  dsimp only
  have e1 : dict_get (mk_fallback_task desc a d2) "description".data =
    some (Json.str desc) := rfl
  have e2 : dict_get (mk_fallback_task desc a d2) "title".data = none := rfl
  have e3 : (dict_get (mk_fallback_task desc a d2) "assignee".data).getD Json.null =
    json_of_opt_str a := rfl
  have e4 : dict_get (mk_fallback_task desc a d2) "due_date".data =
    some (json_of_opt_str d2) := rfl
  have e5 : dict_get (mk_fallback_task desc a d2) "deadline".data = none := rfl
  rw [e1, e2, e3, e4, e5]
  have hassn : ∃ x, resolve_assignee (json_of_opt_str a) = .ok x := by
    cases a with
    | none => exact ⟨none, rfl⟩
    | some s => exact resolve_assignee_str_ok s
  obtain ⟨x, hx⟩ := hassn
  rw [hx]
  dsimp only
  have hdue : ∃ z, resolve_due_date dp today
      (py_or2 (some (json_of_opt_str d2)) none Json.null) = .ok z := by
    cases d2 with
    | none => exact ⟨none, rfl⟩
    | some s =>
      simp only [json_of_opt_str]
      have hpy : py_or2 (some (Json.str s)) none Json.null =
          (if py_truthy (Json.str s) then Json.str s else Json.null) := rfl
      rw [hpy]
      by_cases ht : py_truthy (Json.str s) = true
      · rw [if_pos ht]
        exact resolve_due_date_str_ok dp today s hp hy
      · rw [if_neg ht]
        exact ⟨none, rfl⟩
  obtain ⟨z, hz⟩ := hdue
  rw [hz]
  dsimp only
  have hdv : py_or2 (some (Json.str desc)) none (Json.str "Untitled Task".data) =
      (if py_truthy (Json.str desc) then Json.str desc
       else Json.str "Untitled Task".data) := rfl
  rw [hdv]
  by_cases hd3 : py_truthy (Json.str desc) = true
  · rw [if_pos hd3]
    exact ⟨⟨py_strip desc, x, z⟩, rfl⟩
  · rw [if_neg hd3]
    exact ⟨⟨py_strip "Untitled Task".data, x, z⟩, rfl⟩

theorem mapM_validate_fb_ok (dp : List Char → Option PyDate) (today : PyDate)
    (hp : today.proper) (hy : today.year ≤ 9998) :
    ∀ l : List (List (List Char × Json)),
      (∀ t ∈ l, ∃ desc a d2, t = mk_fallback_task desc a d2) →
      ∃ ts, l.mapM (validate_and_normalize_task dp today) = .ok ts := by
  intro l
  induction l with
  | nil => exact fun _ => ⟨[], rfl⟩
  | cons hd tl ih =>
    intro h
    obtain ⟨desc, a, d2, hhd⟩ := h hd (List.mem_cons_self hd tl)
    obtain ⟨t1, ht1⟩ := validate_fallback_ok dp today desc a d2 hp hy
    obtain ⟨ts, hts⟩ := ih (fun t ht => h t (List.mem_cons_of_mem hd ht))
    refine ⟨t1 :: ts, ?_⟩
    rw [List.mapM_cons, hhd, ht1, hts]
    rfl

theorem fb_collect_shape (s : List Char) (caps : List RxCaps) :
    ∀ seen acc, (∀ t ∈ acc, ∃ desc a d2, t = mk_fallback_task desc a d2) →
      ∀ t ∈ (fb_collect s caps seen acc).2,
        ∃ desc a d2, t = mk_fallback_task desc a d2 := by
  induction caps with
  | nil =>
    intro seen acc h t ht
    exact h t ht
  | cons c more ih =>
    intro seen acc h t ht
    simp only [fb_collect] at ht
    split at ht
    · refine ih _ _ (fun t2 ht2 => ?_) t ht
      rcases List.mem_append.mp ht2 with hl | hr
      · exact h t2 hl
      · exact ⟨_, _, _, List.mem_singleton.mp hr⟩
    · exact ih _ _ h t ht

theorem extract_fb_shape (text : List Char) :
    ∀ t ∈ extract_tasks_from_text_fallback text,
      ∃ desc a d2, t = mk_fallback_task desc a d2 := by
  unfold extract_tasks_from_text_fallback
  dsimp only
  exact fb_collect_shape _ _ _ _ (fb_collect_shape _ _ _ _
    (fb_collect_shape _ _ _ _ (fb_collect_shape _ _ _ _
      (fun t ht => absurd ht (List.not_mem_nil t)))))

theorem fb_choice_shape (transcript : List Char) (summary : Option (List Char))
    (method1 : List Char) :
    ∀ t ∈ (fb_choice transcript summary method1).1,
      ∃ desc a d2, t = mk_fallback_task desc a d2 := by
  intro t ht
  unfold fb_choice at ht
  dsimp only at ht
  split at ht
  · dsimp only at ht
    split at ht
    · split at ht
      · exact extract_fb_shape _ t ht
      · exact absurd ht (List.not_mem_nil t)
    · exact absurd ht (List.not_mem_nil t)
  · split at ht
    · split at ht
      · exact extract_fb_shape _ t ht
      · exact absurd ht (List.not_mem_nil t)
    · exact absurd ht (List.not_mem_nil t)

theorem fallback_stage_ok (dp : List Char → Option PyDate) (today : PyDate)
    (transcript : List Char) (summary : Option (List Char))
    (tasks1 : List NormalizedTask) (method1 : List Char)
    (hp : today.proper) (hy : today.year ≤ 9998) :
    ∃ out, fallback_stage dp today transcript summary tasks1 method1 =
      .ok out := by
  unfold fallback_stage
  split
  · obtain ⟨ts, hts⟩ := mapM_validate_fb_ok dp today hp hy
      (fb_choice transcript summary method1).1
      (fb_choice_shape transcript summary method1)
    dsimp only
    rw [hts]
    exact ⟨_, rfl⟩
  · exact ⟨_, rfl⟩

theorem json_strategy_parse_none (dp : List Char → Option PyDate)
    (today : PyDate) (r : List Char) (h : parse_json_safely r = none) :
    json_strategy dp today (some r) = .ok ([], "none".data) := by
  unfold json_strategy
  dsimp only
  split
  · rw [h]
    rfl
  · rfl

/-- Claim C8: when the upstream-response string fails structured parsing
after all repair heuristics, `safe_extract_tasks` reduces to the regex
fallback stage run over the summary and then the transcript, and (on a valid
clock date with a year of headroom before the calendar ceiling, the condition
under which the embedded date arithmetic cannot overflow) the call never
raises: it returns a well-formed result with a tasks list. -/
theorem claim_C8_fallback_no_raise (dp : List Char → Option PyDate)
    (today : PyDate) (transcript : List Char) (summary : Option (List Char))
    (r : List Char) (hparse : parse_json_safely r = none)
    (hv : today.valid = true) (hy : today.year ≤ 9998) :
    safe_extract_tasks dp today transcript summary (some r) =
      fallback_stage dp today transcript summary [] "none".data ∧
    ∃ out, safe_extract_tasks dp today transcript summary (some r) =
      .ok out := by
  have hp := valid_proper today hv
  have heq : safe_extract_tasks dp today transcript summary (some r) =
      fallback_stage dp today transcript summary [] "none".data := by
    unfold safe_extract_tasks
    rw [json_strategy_parse_none dp today r hparse]
    rfl
  obtain ⟨out, hout⟩ :=
    fallback_stage_ok dp today transcript summary [] "none".data hp hy
  exact ⟨heq, out, heq.trans hout⟩

/-- Claim C8 witness: the unparseable response "oops" on 2026-10-12 sends the
cascade through the fallback stage and yields a result. -/
theorem claim_C8_witness :
    parse_json_safely "oops".data = none ∧
    (PyDate.mk 2026 10 12).valid = true ∧
    (safe_extract_tasks (fun _ => none) ⟨2026, 10, 12⟩ [] none
        (some "oops".data) =
      fallback_stage (fun _ => none) ⟨2026, 10, 12⟩ [] none [] "none".data ∧
    ∃ out, safe_extract_tasks (fun _ => none) ⟨2026, 10, 12⟩ [] none
        (some "oops".data) = .ok out) :=
  ⟨rfl, by decide,
    claim_C8_fallback_no_raise (fun _ => none) ⟨2026, 10, 12⟩ [] none
      "oops".data rfl (by decide) (by decide)⟩

/-- Claim C7: a token already in-flight is skipped: the call returns the
"Already being processed" result with `processed = false`, leaves both the
in-flight and settled sets untouched, and performs no external work (its
effect trace is empty) — the pipeline is not invoked. -/
theorem claim_C7_inflight_skip (env : WatcherEnv) (fn : List Char)
    (st : WatcherState) (h : fn ∈ st.currently_processing) :
    process_recording_file env fn st =
      ({ base_result fn with
          error := some "Already being processed".data,
          processed := false }, st, []) := by
  unfold process_recording_file
  rw [if_pos h]

/-- Claim C7 witness. -/
theorem claim_C7_witness :
    "a.mp4".data ∈ (WatcherState.mk [] ["a.mp4".data]).currently_processing ∧
    process_recording_file
      { transcriber_ready := true, transcribe_result := .ok "hello world".data,
        llm_configured := false, summarize_result := .ok [],
        extract_tasks_raises := true, llm_tasks_repr := [],
        dp := fun _ => none, today := ⟨2026, 10, 12⟩,
        jira_configured := false, jira_create := [],
        confluence_configured := false, confluence_result := .ok none,
        meeting_store := .ok 1 }
      "a.mp4".data (WatcherState.mk [] ["a.mp4".data]) =
      ({ base_result "a.mp4".data with
          error := some "Already being processed".data, processed := false },
       WatcherState.mk [] ["a.mp4".data], []) := by
  refine ⟨by decide, ?_⟩
  exact claim_C7_inflight_skip _ _ _ (by decide)

/-- Claim C6: processing a token that is not in-flight always settles it:
whatever the outcome (transcription failure included), on return the token is
in the settled (processed) set and not in the in-flight set. -/
theorem claim_C6_settles (env : WatcherEnv) (fn : List Char)
    (st : WatcherState) (h : fn ∉ st.currently_processing) :
    fn ∈ (process_recording_file env fn st).2.1.processed_files ∧
    fn ∉ (process_recording_file env fn st).2.1.currently_processing := by
  have hp : fn ∈ set_add fn st.processed_files := mem_set_add_self fn st.processed_files
  have hc : (set_add fn st.currently_processing).erase fn = st.currently_processing :=
    erase_set_add fn st.currently_processing h
  unfold process_recording_file
  rw [if_neg h]
  dsimp only
  constructor
  · repeat' split
    all_goals exact hp
  · repeat' split
    all_goals (rw [hc]; exact h)

/-- Claim C6 witness (a transcription-failure run: the token still settles). -/
theorem claim_C6_witness :
    "b.mp4".data ∉ (WatcherState.mk [] []).currently_processing ∧
    "b.mp4".data ∈ (process_recording_file
      { transcriber_ready := false, transcribe_result := .error "down".data,
        llm_configured := false, summarize_result := .ok [],
        extract_tasks_raises := true, llm_tasks_repr := [],
        dp := fun _ => none, today := ⟨2026, 10, 12⟩,
        jira_configured := false, jira_create := [],
        confluence_configured := false, confluence_result := .ok none,
        meeting_store := .ok 1 }
      "b.mp4".data (WatcherState.mk [] [])).2.1.processed_files := by
  refine ⟨by decide, ?_⟩
  exact (claim_C6_settles _ _ _ (by decide)).1

end WA
